import Mathlib

/-!
Verification of the MQTT 3.1/3.1.1 message codec (package `mqtt`).

Bytes are modelled as `Nat` values; a Go `[]byte` becomes `List Nat` whose
elements are below 256 (byte-valued fields carry that bound as a hypothesis
where a theorem needs it).  Fallible Go functions returning `error` become
`Except DecErr` (decoders) or `Option` (encoders).  Each message's `Encode`
threads the message's internal `bytes.Buffer` explicitly: it takes the buffer
content before the call and returns the buffer content after it, together with
`none` (an error was returned) or `some (bytesWritten, updatedMessage)`.
-/

namespace Mqtt

/-- Error kinds, one per distinct decode-failure return site in the source. -/
inductive DecErr where
  | insufficientData
  | malformedVarint
  | invalidMessageType
  | unexpectedMessageType
  | invalidFlags
  | invalidPublishQos
  | headerSizeMismatch
  | unacceptableProtocolVersion
  | identifierRejected
  | reservedConnectFlagSet
  | invalidWillQos
  | willFlagViolation
  | usernameWithoutPassword
  | trailingBytes
  | connackReservedBitsSet
  | invalidConnackReturnCode
  | invalidTopic
  | emptyTopicList
  | invalidSubackReturnCode
  deriving DecidableEq

/-- `maxLPString`: maximum length of a length-prefixed byte string. -/
def maxLPString : Nat := 65535

/-- `maxRemainingLength`: 268435455 bytes, the largest encodable remaining length. -/
def maxRemainingLength : Nat := 268435455

/-- `readUint16`: big-endian 16-bit read; fails if fewer than 2 bytes remain. -/
def readUint16 (buf : List Nat) : Except DecErr (Nat × List Nat) :=
  match buf with
  | b0 :: b1 :: rest => .ok (b0 * 256 + b1, rest)
  | _ => .error .insufficientData

/-- `writeUint16`: big-endian 16-bit write (`binary.BigEndian.PutUint16`). -/
def writeUint16 (n : Nat) : List Nat :=
  [n / 256 % 256, n % 256]

/-- `readLPBytes`: 2-byte length prefix followed by that many bytes; returns
(bytes, total consumed, rest). Fails if the buffer holds fewer bytes than declared. -/
def readLPBytes (buf : List Nat) : Except DecErr (List Nat × Nat × List Nat) :=
  match readUint16 buf with
  | .error e => .error e
  | .ok (n, rest) =>
    if rest.length < n then .error .insufficientData
    else .ok (rest.take n, 2 + n, rest.drop n)

/-- `writeLPBytes`: length prefix plus payload; fails when the payload exceeds
`maxLPString` bytes (checked before anything is written). -/
def writeLPBytes (b : List Nat) : Option (List Nat) :=
  if b.length > maxLPString then none
  else some (writeUint16 b.length ++ b)

/-- `readVarint32`: base-128 varint, at most 4 bytes; returns (value, bytes
consumed). The Go loop `for i = 0; i < 4` with `break` on a byte below 0x80 is
unrolled; a 4th byte with its continuation bit set is malformed. -/
def readVarint32 (src : List Nat) : Except DecErr (Nat × Nat) :=
  match src with
  | [] => .error .insufficientData
  | b0 :: t0 =>
    if b0 % 256 < 128 then .ok (b0 % 256, 1)
    else
      match t0 with
      | [] => .error .insufficientData
      | b1 :: t1 =>
        if b1 % 256 < 128 then .ok (b0 % 128 + b1 % 256 * 128, 2)
        else
          match t1 with
          | [] => .error .insufficientData
          | b2 :: t2 =>
            if b2 % 256 < 128 then
              .ok (b0 % 128 + b1 % 128 * 128 + b2 % 256 * 16384, 3)
            else
              match t2 with
              | [] => .error .insufficientData
              | b3 :: _ =>
                if b3 % 256 < 128 then
                  .ok (b0 % 128 + b1 % 128 * 128 + b2 % 128 * 16384
                        + b3 % 256 * 2097152, 4)
                else .error .malformedVarint

/-- Loop body of `writeVarint32`: emit low 7 bits with the continuation bit
while the value is at least 0x80 (`byte(x) | 0x80` equals `x % 128 + 128`,
`x >>= 7` is `x / 128`).  The loop is unrolled to its maximum of four
iterations, which covers every value below the `maxRemainingLength` guard. -/
def writeVarintLoop (x : Nat) : List Nat :=
  if x < 128 then [x]
  else (x % 128 + 128) ::
    (if x / 128 < 128 then [x / 128]
     else (x / 128 % 128 + 128) ::
       (if x / 128 / 128 < 128 then [x / 128 / 128]
        else (x / 128 / 128 % 128 + 128) :: [x / 128 / 128 / 128]))

/-- `writeVarint32`: fails when the value exceeds `maxRemainingLength`. -/
def writeVarint32 (x : Nat) : Option (List Nat) :=
  if x > maxRemainingLength then none
  else some (writeVarintLoop x)

/-- `ValidTopic`: nonempty and free of the wildcard bytes '#' (35) and '*' (42). -/
def ValidTopic (topic : List Nat) : Bool :=
  decide (0 < topic.length) && !topic.contains 35 && !topic.contains 42

/-- `ValidQos`: 0, 1 or 2. -/
def ValidQos (qos : Nat) : Bool :=
  qos == 0 || qos == 1 || qos == 2

/-- One character of the client-id character class `[0-9a-zA-Z]`. -/
def validClientIdChar (c : Nat) : Bool :=
  (48 ≤ c && c ≤ 57) || (97 ≤ c && c ≤ 122) || (65 ≤ c && c ≤ 90)

/-- `ValidClientId`: the regexp match `^[0-9a-zA-Z]*$`. -/
def ValidClientId (cid : List Nat) : Bool :=
  cid.all validClientIdChar

/-- The byte string "MQIsdp". -/
def mqisdpBytes : List Nat := [77, 81, 73, 115, 100, 112]

/-- The byte string "MQTT". -/
def mqttBytes : List Nat := [77, 81, 84, 84]

/-- `SupportedVersions`: 0x3 maps to "MQIsdp", 0x4 to "MQTT". -/
def supportedVersionName (v : Nat) : Option (List Nat) :=
  if v = 3 then some mqisdpBytes
  else if v = 4 then some mqttBytes
  else none

/-- Message type numbers CONNECT=1 .. DISCONNECT=14; 0 and 15 are reserved. -/
def CONNECT : Nat := 1
def CONNACK : Nat := 2
def PUBLISH : Nat := 3
def PUBACK : Nat := 4
def PUBREC : Nat := 5
def PUBREL : Nat := 6
def PUBCOMP : Nat := 7
def SUBSCRIBE : Nat := 8
def SUBACK : Nat := 9
def UNSUBSCRIBE : Nat := 10
def UNSUBACK : Nat := 11
def PINGREQ : Nat := 12
def PINGRESP : Nat := 13
def DISCONNECT : Nat := 14

/-- `MessageType.DefaultFlags`: 2 for PUBREL, SUBSCRIBE and UNSUBSCRIBE, else 0. -/
def defaultFlags (t : Nat) : Nat :=
  match t with
  | 6 => 2
  | 8 => 2
  | 10 => 2
  | _ => 0

/-- `MessageType.Valid`: strictly between the two reserved values 0 and 15. -/
def validMessageType (t : Nat) : Bool :=
  0 < t && t < 15

/-- The fixed header: packet type, flags and remaining length.  The working
buffer the Go struct also carries is threaded explicitly by encode/decode. -/
structure FixedHeader where
  mtype : Nat
  flags : Nat
  remlen : Nat
  deriving DecidableEq

/-- Go `int32(total)`: two's-complement truncation of a nonnegative count. -/
def toInt32 (n : Nat) : Int :=
  if n % 4294967296 < 2147483648 then (n % 4294967296 : Int)
  else (n % 4294967296 : Int) - 4294967296

/-- `fixedHeader.SetRemainingLength`: rejects values above the maximum or below
zero, otherwise stores the value. -/
def setRemainingLength (h : FixedHeader) (remlen : Int) : Option FixedHeader :=
  if remlen > (maxRemainingLength : Int) ∨ remlen < 0 then none
  else some { h with remlen := remlen.toNat }

/-- The first byte of the wire format: `byte(mtype)<<4 | flags`. -/
def headerByte (h : FixedHeader) : Nat :=
  Nat.lor (h.mtype * 16 % 256) h.flags

/-- `fixedHeader.Encode`: validates the remaining length and the type, resets
the buffer, then writes the type/flags byte and the varint remaining length.
Returns the byte count and the buffer after the call. -/
def fixedHeaderEncode (h : FixedHeader) (oldBuf : List Nat) :
    Option Nat × List Nat :=
  if h.remlen > maxRemainingLength then (none, oldBuf)
  else if ¬ validMessageType h.mtype then (none, oldBuf)
  else
    match writeVarint32 h.remlen with
    | none => (none, [headerByte h])
    | some v => (some (1 + v.length), headerByte h :: v)

/-- `fixedHeader.Decode` / `fixedHeader.copy`: read the type/flags byte,
validate the type against the expected one and the flags against the type,
read the varint remaining length, then read exactly that many body bytes.
Returns the header, the body buffer and the byte count the source reports on
success (1 plus the varint length; the copied body bytes are not added).  The
source's final `remlen != buf.Len()` re-check is kept verbatim. -/
def fixedHeaderDecode (expected : Nat) (src : List Nat) :
    Except DecErr (FixedHeader × List Nat × Nat) :=
  match src with
  | [] => .error .insufficientData
  | b :: rest =>
    let mt := b / 16 % 16
    let flags := b % 16
    if ¬ validMessageType mt then .error .invalidMessageType
    else if mt ≠ expected then .error .unexpectedMessageType
    else if mt ≠ PUBLISH ∧ flags ≠ defaultFlags mt then .error .invalidFlags
    else if mt = PUBLISH ∧ ¬ ValidQos (flags / 2 % 4) then .error .invalidPublishQos
    else
      match readVarint32 rest with
      | .error e => .error e
      | .ok (remlen, m) =>
        if (rest.drop m).length < remlen then .error .insufficientData
        else if remlen ≠ ((rest.drop m).take remlen).length then
          .error .headerSizeMismatch
        else .ok ({ mtype := mt, flags := flags, remlen := remlen },
                  (rest.drop m).take remlen, 1 + m)

/-! ## Connect message -/

/-- In-memory CONNECT message.  `[]byte` fields become `List Nat`. -/
structure ConnectMessage where
  header : FixedHeader
  connectFlags : Nat
  version : Nat
  keepAlive : Nat
  protoName : List Nat
  clientId : List Nat
  willTopic : List Nat
  willMessage : List Nat
  username : List Nat
  password : List Nat
  deriving DecidableEq

/-- `ConnectMessage.CleanSession`: bit 1 of the connect flags. -/
def cleanSessionFlag (cf : Nat) : Bool := cf / 2 % 2 == 1

/-- `ConnectMessage.WillFlag`: bit 2 of the connect flags. -/
def willFlagB (cf : Nat) : Bool := cf / 4 % 2 == 1

/-- `ConnectMessage.WillQos`: bits 4-3 of the connect flags. -/
def willQosOf (cf : Nat) : Nat := cf / 8 % 4

/-- `ConnectMessage.WillRetain`: bit 5 of the connect flags. -/
def willRetainB (cf : Nat) : Bool := cf / 32 % 2 == 1

/-- `ConnectMessage.PasswordFlag`: bit 6 of the connect flags. -/
def passwordFlagB (cf : Nat) : Bool := cf / 64 % 2 == 1

/-- `ConnectMessage.UsernameFlag`: bit 7 of the connect flags. -/
def usernameFlagB (cf : Nat) : Bool := cf / 128 % 2 == 1

/-- Username/password stage of `ConnectMessage.decodeMessage`: each string is
read only when its flag is set and bytes remain; afterwards the buffer must be
empty. -/
def connectDecodeAuth (h : FixedHeader) (pn : List Nat) (version cf ka : Nat)
    (cid wt wm : List Nat) (acc : Nat) (r7 : List Nat) :
    Except DecErr (ConnectMessage × Nat) :=
  match (if usernameFlagB cf ∧ r7 ≠ [] then readLPBytes r7
         else .ok ([], 0, r7)) with
  | .error e => .error e
  | .ok (u, n5, r8) =>
    match (if passwordFlagB cf ∧ r8 ≠ [] then readLPBytes r8
           else .ok ([], 0, r8)) with
    | .error e => .error e
    | .ok (pw, n6, r9) =>
      if r9 ≠ [] then .error .trailingBytes
      else .ok ({ header := h, connectFlags := cf, version := version,
                  keepAlive := ka, protoName := pn, clientId := cid,
                  willTopic := wt, willMessage := wm, username := u,
                  password := pw }, acc + n5 + n6)

/-- Will-topic/will-message stage of `ConnectMessage.decodeMessage`. -/
def connectDecodeWill (h : FixedHeader) (pn : List Nat) (version cf ka : Nat)
    (cid : List Nat) (acc : Nat) (r5 : List Nat) :
    Except DecErr (ConnectMessage × Nat) :=
  if willFlagB cf then
    match readLPBytes r5 with
    | .error e => .error e
    | .ok (wt, n3, r6) =>
      match readLPBytes r6 with
      | .error e => .error e
      | .ok (wm, n4, r7) =>
        connectDecodeAuth h pn version cf ka cid wt wm (acc + n3 + n4) r7
  else connectDecodeAuth h pn version cf ka cid [] [] acc r5

/-- `ConnectMessage.decodeMessage`: sequential parse of the CONNECT body with
all validity checks, in source order.  Returns the decoded message (unread
optional fields keep the fresh message's empty value) and the bytes consumed. -/
def connectDecodeMessage (h : FixedHeader) (body : List Nat) :
    Except DecErr (ConnectMessage × Nat) :=
  match readLPBytes body with
  | .error e => .error e
  | .ok (pn, n1, r1) =>
    match r1 with
    | [] => .error .insufficientData
    | version :: r2 =>
      match supportedVersionName version with
      | none => .error .unacceptableProtocolVersion
      | some vs =>
        if vs ≠ pn then .error .unacceptableProtocolVersion
        else
          match r2 with
          | [] => .error .insufficientData
          | cf :: r3 =>
            if cf % 2 ≠ 0 then .error .reservedConnectFlagSet
            else if willQosOf cf > 2 then .error .invalidWillQos
            else if ¬ willFlagB cf ∧ (willRetainB cf ∨ willQosOf cf ≠ 0) then
              .error .willFlagViolation
            else if usernameFlagB cf ∧ ¬ passwordFlagB cf then
              .error .usernameWithoutPassword
            else
              match readUint16 r3 with
              | .error e => .error e
              | .ok (ka, r4) =>
                match readLPBytes r4 with
                | .error e => .error e
                | .ok (cid, n2, r5) =>
                  if cid.length = 0 ∧ ¬ cleanSessionFlag cf then
                    .error .identifierRejected
                  else if 0 < cid.length ∧ ¬ ValidClientId cid then
                    .error .identifierRejected
                  else
                    connectDecodeWill h pn version cf ka cid (n1 + 1 + 1 + 2 + n2) r5

/-- `ConnectMessage.Decode`: fixed header, then the body. -/
def connectDecode (src : List Nat) : Except DecErr (ConnectMessage × Nat) :=
  match fixedHeaderDecode CONNECT src with
  | .error e => .error e
  | .ok (h, body, n) =>
    match connectDecodeMessage h body with
    | .error e => .error e
    | .ok (m, n2) => .ok (m, n + n2)

/-- The CONNECT body size `ConnectMessage.Encode` computes before writing. -/
def connectBodyLen (m : ConnectMessage) : Nat :=
  (match supportedVersionName m.version with
   | some vs => 2 + vs.length
   | none => 2)
  + 1 + 1 + 2 + (2 + m.clientId.length)
  + (if willFlagB m.connectFlags then
       2 + m.willTopic.length + 2 + m.willMessage.length else 0)
  + (if usernameFlagB m.connectFlags ∧ 0 < m.username.length then
       2 + m.username.length else 0)
  + (if passwordFlagB m.connectFlags ∧ 0 < m.password.length then
       2 + m.password.length else 0)

/-- Username/password stage of `ConnectMessage.encodeMessage`. -/
def connectEncodeAuth (m : ConnectMessage) (buf : List Nat) (acc : Nat) :
    Option Nat × List Nat :=
  match (if usernameFlagB m.connectFlags ∧ 0 < m.username.length then
           (writeLPBytes m.username).map (fun w => (w, w.length))
         else some ([], 0)) with
  | none => (none, buf)
  | some (wu, du) =>
    match (if passwordFlagB m.connectFlags ∧ 0 < m.password.length then
             (writeLPBytes m.password).map (fun w => (w, w.length))
           else some ([], 0)) with
    | none => (none, buf ++ wu)
    | some (wp, dp) => (some (acc + du + dp), buf ++ wu ++ wp)

/-- `ConnectMessage.encodeMessage`: protocol name, version, connect flags,
keep-alive, client id, then the optional will/username/password strings. -/
def connectEncodeMessage (m : ConnectMessage) (buf : List Nat) :
    Option Nat × List Nat :=
  match supportedVersionName m.version with
  | none => (none, buf)
  | some vs =>
    match writeLPBytes vs with
    | none => (none, buf)
    | some w1 =>
      let buf1 := buf ++ w1 ++ [m.version, m.connectFlags] ++ writeUint16 m.keepAlive
      match writeLPBytes m.clientId with
      | none => (none, buf1)
      | some w2 =>
        if willFlagB m.connectFlags then
          match writeLPBytes m.willTopic with
          | none => (none, buf1 ++ w2)
          | some wt =>
            match writeLPBytes m.willMessage with
            | none => (none, buf1 ++ w2 ++ wt)
            | some wm =>
              connectEncodeAuth m (buf1 ++ w2 ++ wt ++ wm)
                (w1.length + 1 + 1 + 2 + w2.length + wt.length + wm.length)
        else
          connectEncodeAuth m (buf1 ++ w2) (w1.length + 1 + 1 + 2 + w2.length)

/-- `ConnectMessage.Encode`: type check, version lookup, remaining-length
computation (failure here aborts before anything is written), then fixed
header followed by the body. -/
def connectEncode (m : ConnectMessage) (oldBuf : List Nat) :
    Option (Nat × ConnectMessage) × List Nat :=
  if m.header.mtype ≠ CONNECT then (none, oldBuf)
  else
    match supportedVersionName m.version with
    | none => (none, oldBuf)
    | some _ =>
      match setRemainingLength m.header (toInt32 (connectBodyLen m)) with
      | none => (none, oldBuf)
      | some h2 =>
        let m2 := { m with header := h2 }
        match fixedHeaderEncode h2 oldBuf with
        | (none, buf) => (none, buf)
        | (some n, buf) =>
          match connectEncodeMessage m2 buf with
          | (none, buf2) => (none, buf2)
          | (some n2, buf2) => (some (n + n2, m2), buf2)

/-! ## Connack message -/

/-- In-memory CONNACK message. -/
structure ConnackMessage where
  header : FixedHeader
  sessionPresent : Bool
  returnCode : Nat
  deriving DecidableEq

/-- `ConnackMessage.Decode`: acknowledge-flags byte (bits 7-1 must be zero,
checked as `b & 254`), then the return code (must be at most 5). -/
def connackDecode (src : List Nat) : Except DecErr (ConnackMessage × Nat) :=
  match fixedHeaderDecode CONNACK src with
  | .error e => .error e
  | .ok (h, body, n) =>
    match body with
    | [] => .error .insufficientData
    | b0 :: r1 =>
      if Nat.land b0 254 ≠ 0 then .error .connackReservedBitsSet
      else
        match r1 with
        | [] => .error .insufficientData
        | b1 :: _ =>
          if b1 > 5 then .error .invalidConnackReturnCode
          else .ok ({ header := h, sessionPresent := b0 % 2 == 1,
                      returnCode := b1 }, n + 2)

/-- `ConnackMessage.Encode`: remaining length fixed at 2; the return-code
validity check happens only after the fixed header has been written. -/
def connackEncode (m : ConnackMessage) (oldBuf : List Nat) :
    Option (Nat × ConnackMessage) × List Nat :=
  let h2 := match setRemainingLength m.header 2 with
            | some h2 => h2
            | none => m.header
  let m2 := { m with header := h2 }
  match fixedHeaderEncode h2 oldBuf with
  | (none, buf) => (none, buf)
  | (some n, buf) =>
    if m.returnCode > 5 then (none, buf)
    else (some (n + 2, m2),
          buf ++ [if m.sessionPresent then 1 else 0, m.returnCode])

/-! ## Publish message -/

/-- In-memory PUBLISH message. -/
structure PublishMessage where
  header : FixedHeader
  packetId : Nat
  topic : List Nat
  payload : List Nat
  deriving DecidableEq

/-- `PublishMessage.QoS`: bits 2-1 of the header flags. -/
def pubQoS (h : FixedHeader) : Nat := h.flags / 2 % 4

/-- `PublishMessage.Decode`: topic, topic validity, the packet identifier only
when QoS is nonzero, then the rest of the body verbatim as the payload. -/
def publishDecode (src : List Nat) : Except DecErr (PublishMessage × Nat) :=
  match fixedHeaderDecode PUBLISH src with
  | .error e => .error e
  | .ok (h, body, n) =>
    match readLPBytes body with
    | .error e => .error e
    | .ok (topic, n1, r1) =>
      if ¬ ValidTopic topic then .error .invalidTopic
      else if pubQoS h ≠ 0 then
        match readUint16 r1 with
        | .error e => .error e
        | .ok (pid, r2) =>
          .ok ({ header := h, packetId := pid, topic := topic, payload := r2 },
               n + n1 + 2 + r2.length)
      else
        .ok ({ header := h, packetId := 0, topic := topic, payload := r1 },
             n + n1 + r1.length)

/-- `PublishMessage.Encode`: empty topic or payload fails before anything is
written; the `SetRemainingLength` error is discarded, keeping the previous
remaining length when the computed size is out of range. -/
def publishEncode (m : PublishMessage) (oldBuf : List Nat) :
    Option (Nat × PublishMessage) × List Nat :=
  if m.topic.length = 0 then (none, oldBuf)
  else if m.payload.length = 0 then (none, oldBuf)
  else
    let total := 2 + m.topic.length + m.payload.length
      + (if pubQoS m.header ≠ 0 then 2 else 0)
    let h2 := match setRemainingLength m.header (toInt32 total) with
              | some h2 => h2
              | none => m.header
    let m2 := { m with header := h2 }
    match fixedHeaderEncode h2 oldBuf with
    | (none, buf) => (none, buf)
    | (some n, buf) =>
      match writeLPBytes m.topic with
      | none => (none, buf)
      | some wt =>
        let pidBytes := if pubQoS m.header ≠ 0 then writeUint16 m.packetId else []
        (some (n + wt.length + pidBytes.length + m.payload.length, m2),
         buf ++ wt ++ pidBytes ++ m.payload)

/-! ## Acknowledgement messages (packet identifier only) -/

/-- Message holding just a packet identifier after the fixed header.  PUBACK is
`puback.go`; the decoder/encoder shape is shared.
Modelled from the spec: the PUBREC, PUBREL, PUBCOMP and UNSUBACK message
sources are not under src/ (only their tests); the spec describes them as
"packet identifier only" with the same decode/encode contract as PUBACK. -/
structure AckMessage where
  header : FixedHeader
  packetId : Nat
  deriving DecidableEq

/-- `PubackMessage.Decode` (and, modelled from the spec, the PUBREC / PUBREL /
PUBCOMP / UNSUBACK decoders): fixed header then a 2-byte packet identifier;
any remaining body bytes are left unexamined. -/
def ackDecode (expected : Nat) (src : List Nat) :
    Except DecErr (AckMessage × Nat) :=
  match fixedHeaderDecode expected src with
  | .error e => .error e
  | .ok (h, body, n) =>
    match readUint16 body with
    | .error e => .error e
    | .ok (pid, _) => .ok ({ header := h, packetId := pid }, n + 2)

/-- `PubackMessage.Encode` (and, modelled from the spec, PUBREC / PUBREL /
PUBCOMP / UNSUBACK): remaining length 2, fixed header, packet identifier. -/
def ackEncode (m : AckMessage) (oldBuf : List Nat) :
    Option (Nat × AckMessage) × List Nat :=
  let h2 := match setRemainingLength m.header 2 with
            | some h2 => h2
            | none => m.header
  let m2 := { m with header := h2 }
  match fixedHeaderEncode h2 oldBuf with
  | (none, buf) => (none, buf)
  | (some n, buf) => (some (n + 2, m2), buf ++ writeUint16 m.packetId)

/-! ## Subscribe message -/

/-- In-memory SUBSCRIBE message. -/
structure SubscribeMessage where
  header : FixedHeader
  packetId : Nat
  topics : List (List Nat)
  qos : List Nat
  deriving DecidableEq

/-- The SUBSCRIBE decode loop: read (length-prefixed topic, QoS byte) pairs
until the buffer is exhausted.  The QoS byte is stored verbatim, without
validation.  Also returns the bytes consumed. -/
def readTopicsQos (buf : List Nat) : Except DecErr (List (List Nat) × List Nat × Nat) :=
  if hbe : buf = [] then .ok ([], [], 0)
  else
    match hr : readLPBytes buf with
    | .error e => .error e
    | .ok (t, n, rest) =>
      match rest with
      | [] => .error .insufficientData
      | q :: rest2 =>
        match readTopicsQos rest2 with
        | .error e => .error e
        | .ok (ts, qs, c) => .ok (t :: ts, q :: qs, n + 1 + c)
termination_by buf.length
decreasing_by
  simp only [readLPBytes, readUint16] at hr
  rcases buf with _ | ⟨b0, _ | ⟨b1, r⟩⟩ <;> simp at hr
  split at hr
  · exact absurd hr (by simp)
  · simp only [Except.ok.injEq, Prod.mk.injEq] at hr
    have hd : List.drop (b0 * 256 + b1) r = q :: rest2 := hr.2.2
    have hl : (q :: rest2).length = r.length - (b0 * 256 + b1) := by
      rw [← hd]; simp
    simp only [List.length_cons] at hl ⊢
    omega

/-- `SubscribeMessage.Decode`: packet identifier then topic/QoS pairs; an
empty topic list is rejected after the loop. -/
def subscribeDecode (src : List Nat) : Except DecErr (SubscribeMessage × Nat) :=
  match fixedHeaderDecode SUBSCRIBE src with
  | .error e => .error e
  | .ok (h, body, n) =>
    match readUint16 body with
    | .error e => .error e
    | .ok (pid, r1) =>
      match readTopicsQos r1 with
      | .error e => .error e
      | .ok (ts, qs, c) =>
        if ts.length = 0 then .error .emptyTopicList
        else .ok ({ header := h, packetId := pid, topics := ts, qos := qs },
                  n + 2 + c)

/-- The SUBSCRIBE encode loop: write each length-prefixed topic followed by
its QoS byte (`this.qos[i]`; a QoS list shorter than the topic list, which
would make the Go index expression panic, is modelled as failure). -/
def writePairsBuf (ts : List (List Nat)) (qs : List Nat) (buf : List Nat)
    (acc : Nat) : Option Nat × List Nat :=
  match ts, qs with
  | [], _ => (some acc, buf)
  | t :: ts2, q :: qs2 =>
    match writeLPBytes t with
    | none => (none, buf)
    | some w => writePairsBuf ts2 qs2 (buf ++ w ++ [q]) (acc + w.length + 1)
  | _ :: _, [] => (none, buf)

/-- The SUBSCRIBE body size computed by `SubscribeMessage.Encode`. -/
def subscribeBodyLen (m : SubscribeMessage) : Nat :=
  2 + (m.topics.map (fun t => 2 + t.length + 1)).sum

/-- `SubscribeMessage.Encode`: the `SetRemainingLength` error is discarded
(the header keeps its previous remaining length when the computed size is out
of range), then the fixed header, packet identifier and topic/QoS pairs. -/
def subscribeEncode (m : SubscribeMessage) (oldBuf : List Nat) :
    Option (Nat × SubscribeMessage) × List Nat :=
  let h2 := match setRemainingLength m.header (toInt32 (subscribeBodyLen m)) with
            | some h2 => h2
            | none => m.header
  let m2 := { m with header := h2 }
  match fixedHeaderEncode h2 oldBuf with
  | (none, buf) => (none, buf)
  | (some n, buf) =>
    match writePairsBuf m.topics m.qos (buf ++ writeUint16 m.packetId) (n + 2) with
    | (none, buf2) => (none, buf2)
    | (some acc, buf2) => (some (acc, m2), buf2)

/-- `SubscribeMessage.AddTopic`: rejects an invalid QoS; overwrites the QoS of
an existing topic, otherwise appends the pair. -/
def subscribeAddTopic (m : SubscribeMessage) (topic : List Nat) (qos : Nat) :
    Option SubscribeMessage :=
  if ¬ ValidQos qos then none
  else
    match m.topics.findIdx? (fun t => t == topic) with
    | some i => some { m with qos := m.qos.set i qos }
    | none => some { m with topics := m.topics ++ [topic], qos := m.qos ++ [qos] }

/-! ## Suback message -/

/-- In-memory SUBACK message. -/
structure SubackMessage where
  header : FixedHeader
  packetId : Nat
  returnCodes : List Nat
  deriving DecidableEq

/-- A SUBACK return code: 0, 1, 2 or 0x80. -/
def validSubackCode (c : Nat) : Bool :=
  c == 0 || c == 1 || c == 2 || c == 128

/-- `SubackMessage.Decode`: packet identifier, then the rest of the body as
return codes, each validated to be 0, 1, 2 or 0x80. -/
def subackDecode (src : List Nat) : Except DecErr (SubackMessage × Nat) :=
  match fixedHeaderDecode SUBACK src with
  | .error e => .error e
  | .ok (h, body, n) =>
    match readUint16 body with
    | .error e => .error e
    | .ok (pid, r1) =>
      if ¬ r1.all validSubackCode then .error .invalidSubackReturnCode
      else .ok ({ header := h, packetId := pid, returnCodes := r1 },
                n + 2 + r1.length)

/-- `SubackMessage.Encode`: return codes validated before anything is written;
the `SetRemainingLength` error is discarded. -/
def subackEncode (m : SubackMessage) (oldBuf : List Nat) :
    Option (Nat × SubackMessage) × List Nat :=
  if ¬ m.returnCodes.all validSubackCode then (none, oldBuf)
  else
    let h2 := match setRemainingLength m.header (toInt32 (2 + m.returnCodes.length)) with
              | some h2 => h2
              | none => m.header
    let m2 := { m with header := h2 }
    match fixedHeaderEncode h2 oldBuf with
    | (none, buf) => (none, buf)
    | (some n, buf) =>
      (some (n + 2 + m.returnCodes.length, m2),
       buf ++ writeUint16 m.packetId ++ m.returnCodes)

/-! ## Unsubscribe message -/

/-- In-memory UNSUBSCRIBE message. -/
structure UnsubscribeMessage where
  header : FixedHeader
  packetId : Nat
  topics : List (List Nat)
  deriving DecidableEq

/-- The UNSUBSCRIBE decode loop: length-prefixed topics until the buffer is
exhausted; returns the topics and the bytes consumed. -/
def readTopics (buf : List Nat) : Except DecErr (List (List Nat) × Nat) :=
  if hbe : buf = [] then .ok ([], 0)
  else
    match hr : readLPBytes buf with
    | .error e => .error e
    | .ok (t, n, rest) =>
      match readTopics rest with
      | .error e => .error e
      | .ok (ts, c) => .ok (t :: ts, n + c)
termination_by buf.length
decreasing_by
  simp only [readLPBytes, readUint16] at hr
  rcases buf with _ | ⟨b0, _ | ⟨b1, r⟩⟩ <;> simp at hr
  split at hr
  · exact absurd hr (by simp)
  · simp only [Except.ok.injEq, Prod.mk.injEq] at hr
    have hd : List.drop (b0 * 256 + b1) r = rest := hr.2.2
    have hl : rest.length = r.length - (b0 * 256 + b1) := by
      rw [← hd]; simp
    simp only [List.length_cons]
    omega

/-- `UnsubscribeMessage.Decode`: packet identifier then topics; an empty topic
list is rejected after the loop. -/
def unsubscribeDecode (src : List Nat) :
    Except DecErr (UnsubscribeMessage × Nat) :=
  match fixedHeaderDecode UNSUBSCRIBE src with
  | .error e => .error e
  | .ok (h, body, n) =>
    match readUint16 body with
    | .error e => .error e
    | .ok (pid, r1) =>
      match readTopics r1 with
      | .error e => .error e
      | .ok (ts, c) =>
        if ts.length = 0 then .error .emptyTopicList
        else .ok ({ header := h, packetId := pid, topics := ts }, n + 2 + c)

/-- The UNSUBSCRIBE encode loop: write each length-prefixed topic. -/
def writeTopicsBuf (ts : List (List Nat)) (buf : List Nat) (acc : Nat) :
    Option Nat × List Nat :=
  match ts with
  | [] => (some acc, buf)
  | t :: ts2 =>
    match writeLPBytes t with
    | none => (none, buf)
    | some w => writeTopicsBuf ts2 (buf ++ w) (acc + w.length)

/-- The UNSUBSCRIBE body size computed by `UnsubscribeMessage.Encode`. -/
def unsubscribeBodyLen (m : UnsubscribeMessage) : Nat :=
  2 + (m.topics.map (fun t => 2 + t.length)).sum

/-- `UnsubscribeMessage.Encode`: the `SetRemainingLength` error is discarded,
then the fixed header, packet identifier and topics. -/
def unsubscribeEncode (m : UnsubscribeMessage) (oldBuf : List Nat) :
    Option (Nat × UnsubscribeMessage) × List Nat :=
  let h2 := match setRemainingLength m.header (toInt32 (unsubscribeBodyLen m)) with
            | some h2 => h2
            | none => m.header
  let m2 := { m with header := h2 }
  match fixedHeaderEncode h2 oldBuf with
  | (none, buf) => (none, buf)
  | (some n, buf) =>
    match writeTopicsBuf m.topics (buf ++ writeUint16 m.packetId) (n + 2) with
    | (none, buf2) => (none, buf2)
    | (some acc, buf2) => (some (acc, m2), buf2)

/-! ## Header-only messages -/

/-- Modelled from the spec: the PINGREQ, PINGRESP and DISCONNECT message
sources are not under src/; the spec describes them as header-only packets
(remaining length 0, no body fields). -/
structure HeaderOnlyMessage where
  header : FixedHeader
  deriving DecidableEq

/-- Modelled from the spec: decode of a header-only message is just the fixed
header. -/
def headerOnlyDecode (expected : Nat) (src : List Nat) :
    Except DecErr (HeaderOnlyMessage × Nat) :=
  match fixedHeaderDecode expected src with
  | .error e => .error e
  | .ok (h, _, n) => .ok ({ header := h }, n)

/-- Modelled from the spec: encode of a header-only message writes the fixed
header with remaining length 0. -/
def headerOnlyEncode (m : HeaderOnlyMessage) (oldBuf : List Nat) :
    Option (Nat × HeaderOnlyMessage) × List Nat :=
  let h2 := match setRemainingLength m.header 0 with
            | some h2 => h2
            | none => m.header
  let m2 : HeaderOnlyMessage := { header := h2 }
  match fixedHeaderEncode h2 oldBuf with
  | (none, buf) => (none, buf)
  | (some n, buf) => (some (n, m2), buf)

/-! ## The packet sum type -/

/-- The tagged union over the 13 packet shapes (`MessageType.New` dispatch). -/
inductive Packet where
  | connect (m : ConnectMessage)
  | connack (m : ConnackMessage)
  | publish (m : PublishMessage)
  | puback (m : AckMessage)
  | pubrec (m : AckMessage)
  | pubrel (m : AckMessage)
  | pubcomp (m : AckMessage)
  | subscribe (m : SubscribeMessage)
  | suback (m : SubackMessage)
  | unsubscribe (m : UnsubscribeMessage)
  | unsuback (m : AckMessage)
  | pingreq (m : HeaderOnlyMessage)
  | pingresp (m : HeaderOnlyMessage)
  | disconnect (m : HeaderOnlyMessage)
  deriving DecidableEq

/-- The wire type number of a packet variant. -/
def Packet.ptype : Packet → Nat
  | .connect _ => CONNECT
  | .connack _ => CONNACK
  | .publish _ => PUBLISH
  | .puback _ => PUBACK
  | .pubrec _ => PUBREC
  | .pubrel _ => PUBREL
  | .pubcomp _ => PUBCOMP
  | .subscribe _ => SUBSCRIBE
  | .suback _ => SUBACK
  | .unsubscribe _ => UNSUBSCRIBE
  | .unsuback _ => UNSUBACK
  | .pingreq _ => PINGREQ
  | .pingresp _ => PINGRESP
  | .disconnect _ => DISCONNECT

/-- Repackage a per-type encode result into the sum type. -/
def mapEncodeResult {α : Type} (f : α → Packet) :
    Option (Nat × α) × List Nat → Option (Nat × Packet) × List Nat
  | (none, b) => (none, b)
  | (some (n, m), b) => (some (n, f m), b)

/-- `Encode` dispatched over the packet variants. -/
def Packet.encode (p : Packet) (oldBuf : List Nat) :
    Option (Nat × Packet) × List Nat :=
  match p with
  | .connect m => mapEncodeResult .connect (connectEncode m oldBuf)
  | .connack m => mapEncodeResult .connack (connackEncode m oldBuf)
  | .publish m => mapEncodeResult .publish (publishEncode m oldBuf)
  | .puback m => mapEncodeResult .puback (ackEncode m oldBuf)
  | .pubrec m => mapEncodeResult .pubrec (ackEncode m oldBuf)
  | .pubrel m => mapEncodeResult .pubrel (ackEncode m oldBuf)
  | .pubcomp m => mapEncodeResult .pubcomp (ackEncode m oldBuf)
  | .subscribe m => mapEncodeResult .subscribe (subscribeEncode m oldBuf)
  | .suback m => mapEncodeResult .suback (subackEncode m oldBuf)
  | .unsubscribe m => mapEncodeResult .unsubscribe (unsubscribeEncode m oldBuf)
  | .unsuback m => mapEncodeResult .unsuback (ackEncode m oldBuf)
  | .pingreq m => mapEncodeResult .pingreq (headerOnlyEncode m oldBuf)
  | .pingresp m => mapEncodeResult .pingresp (headerOnlyEncode m oldBuf)
  | .disconnect m => mapEncodeResult .disconnect (headerOnlyEncode m oldBuf)

/-- Decode with a fresh packet of the given type (`MessageType.New` followed by
that message's `Decode`). -/
def Packet.decodeAs (t : Nat) (src : List Nat) : Except DecErr (Packet × Nat) :=
  match t with
  | 1 => (connectDecode src).map (fun r => (.connect r.1, r.2))
  | 2 => (connackDecode src).map (fun r => (.connack r.1, r.2))
  | 3 => (publishDecode src).map (fun r => (.publish r.1, r.2))
  | 4 => (ackDecode PUBACK src).map (fun r => (.puback r.1, r.2))
  | 5 => (ackDecode PUBREC src).map (fun r => (.pubrec r.1, r.2))
  | 6 => (ackDecode PUBREL src).map (fun r => (.pubrel r.1, r.2))
  | 7 => (ackDecode PUBCOMP src).map (fun r => (.pubcomp r.1, r.2))
  | 8 => (subscribeDecode src).map (fun r => (.subscribe r.1, r.2))
  | 9 => (subackDecode src).map (fun r => (.suback r.1, r.2))
  | 10 => (unsubscribeDecode src).map (fun r => (.unsubscribe r.1, r.2))
  | 11 => (ackDecode UNSUBACK src).map (fun r => (.unsuback r.1, r.2))
  | 12 => (headerOnlyDecode PINGREQ src).map (fun r => (.pingreq r.1, r.2))
  | 13 => (headerOnlyDecode PINGRESP src).map (fun r => (.pingresp r.1, r.2))
  | 14 => (headerOnlyDecode DISCONNECT src).map (fun r => (.disconnect r.1, r.2))
  | _ => .error .invalidMessageType

/-! ## Wire-validity predicates

The field restrictions a message must satisfy for its own decoder to accept
its encoding (the decoder-enforced invariants of reachable messages). -/

/-- The header of a type-`t` message as its decoder requires it. -/
def FixedHeaderValidFor (t : Nat) (h : FixedHeader) : Prop :=
  h.mtype = t ∧ h.flags < 16 ∧
  (t ≠ PUBLISH → h.flags = defaultFlags t) ∧
  (t = PUBLISH → ValidQos (h.flags / 2 % 4) = true)

/-- CONNECT wire validity: every field restriction `decodeMessage` checks,
plus the byte/uint16 field bounds and the remaining-length bound. -/
def ConnectValid (m : ConnectMessage) : Prop :=
  FixedHeaderValidFor CONNECT m.header ∧
  m.connectFlags < 256 ∧
  m.connectFlags % 2 = 0 ∧
  willQosOf m.connectFlags ≤ 2 ∧
  (willFlagB m.connectFlags = false →
    willRetainB m.connectFlags = false ∧ willQosOf m.connectFlags = 0) ∧
  (usernameFlagB m.connectFlags = true → passwordFlagB m.connectFlags = true) ∧
  (usernameFlagB m.connectFlags = false → m.username = []) ∧
  (passwordFlagB m.connectFlags = false → m.password = []) ∧
  (usernameFlagB m.connectFlags = true → m.username = [] → m.password = []) ∧
  (willFlagB m.connectFlags = false → m.willTopic = [] ∧ m.willMessage = []) ∧
  (m.clientId = [] → cleanSessionFlag m.connectFlags = true) ∧
  ValidClientId m.clientId = true ∧
  supportedVersionName m.version = some m.protoName ∧
  m.keepAlive < 65536 ∧
  m.clientId.length ≤ maxLPString ∧
  m.willTopic.length ≤ maxLPString ∧
  m.willMessage.length ≤ maxLPString ∧
  m.username.length ≤ maxLPString ∧
  m.password.length ≤ maxLPString ∧
  connectBodyLen m ≤ maxRemainingLength

/-- CONNACK wire validity. -/
def ConnackValid (m : ConnackMessage) : Prop :=
  FixedHeaderValidFor CONNACK m.header ∧ m.returnCode ≤ 5

/-- PUBLISH wire validity. -/
def PublishValid (m : PublishMessage) : Prop :=
  FixedHeaderValidFor PUBLISH m.header ∧
  ValidTopic m.topic = true ∧
  m.topic.length ≤ maxLPString ∧
  m.payload ≠ [] ∧
  m.packetId < 65536 ∧
  (pubQoS m.header = 0 → m.packetId = 0) ∧
  2 + m.topic.length + m.payload.length
    + (if pubQoS m.header ≠ 0 then 2 else 0) ≤ maxRemainingLength

/-- Validity of a packet-identifier-only message of type `t`. -/
def AckValid (t : Nat) (m : AckMessage) : Prop :=
  FixedHeaderValidFor t m.header ∧ m.packetId < 65536

/-- SUBSCRIBE wire validity. -/
def SubscribeValid (m : SubscribeMessage) : Prop :=
  FixedHeaderValidFor SUBSCRIBE m.header ∧
  m.packetId < 65536 ∧
  m.topics ≠ [] ∧
  m.topics.length = m.qos.length ∧
  (∀ t ∈ m.topics, t.length ≤ maxLPString) ∧
  subscribeBodyLen m ≤ maxRemainingLength

/-- SUBACK wire validity. -/
def SubackValid (m : SubackMessage) : Prop :=
  FixedHeaderValidFor SUBACK m.header ∧
  m.packetId < 65536 ∧
  m.returnCodes.all validSubackCode = true ∧
  2 + m.returnCodes.length ≤ maxRemainingLength

/-- UNSUBSCRIBE wire validity. -/
def UnsubscribeValid (m : UnsubscribeMessage) : Prop :=
  FixedHeaderValidFor UNSUBSCRIBE m.header ∧
  m.packetId < 65536 ∧
  m.topics ≠ [] ∧
  (∀ t ∈ m.topics, t.length ≤ maxLPString) ∧
  unsubscribeBodyLen m ≤ maxRemainingLength

/-- Wire validity over the packet sum. -/
def Packet.valid : Packet → Prop
  | .connect m => ConnectValid m
  | .connack m => ConnackValid m
  | .publish m => PublishValid m
  | .puback m => AckValid PUBACK m
  | .pubrec m => AckValid PUBREC m
  | .pubrel m => AckValid PUBREL m
  | .pubcomp m => AckValid PUBCOMP m
  | .subscribe m => SubscribeValid m
  | .suback m => SubackValid m
  | .unsubscribe m => UnsubscribeValid m
  | .unsuback m => AckValid UNSUBACK m
  | .pingreq m => FixedHeaderValidFor PINGREQ m.header
  | .pingresp m => FixedHeaderValidFor PINGRESP m.header
  | .disconnect m => FixedHeaderValidFor DISCONNECT m.header

deriving instance DecidableEq for Except

/-! ## Byte-image descriptions used by the round-trip statements -/

/-- The wire image of a length-prefixed byte string. -/
def lpBytes (b : List Nat) : List Nat := writeUint16 b.length ++ b

/-- The wire image of the CONNECT body (what `encodeMessage` writes for a
message whose `protoName` agrees with its registered version string). -/
def connectBodyBytes (m : ConnectMessage) : List Nat :=
  lpBytes m.protoName ++
    (m.version :: m.connectFlags :: (writeUint16 m.keepAlive ++
      (lpBytes m.clientId ++
        ((if willFlagB m.connectFlags then
            lpBytes m.willTopic ++ lpBytes m.willMessage else []) ++
          ((if usernameFlagB m.connectFlags ∧ 0 < m.username.length then
              lpBytes m.username else []) ++
            (if passwordFlagB m.connectFlags ∧ 0 < m.password.length then
              lpBytes m.password else []))))))

/-- The wire image of a SUBSCRIBE body's topic/QoS pairs. -/
def pairsBytes : List (List Nat) → List Nat → List Nat
  | t :: ts, q :: qs => lpBytes t ++ q :: pairsBytes ts qs
  | _, _ => []

/-- The wire image of an UNSUBSCRIBE body's topics. -/
def topicsBytes : List (List Nat) → List Nat
  | t :: ts => lpBytes t ++ topicsBytes ts
  | [] => []

/-- A Subscribe message whose computed body size (2 + 3 per empty topic)
exceeds the maximum remaining length. -/
def c10msg : SubscribeMessage :=
  { header := { mtype := 8, flags := 2, remlen := 0 },
    packetId := 0,
    topics := List.replicate 89478486 [],
    qos := List.replicate 89478486 0 }

/-- A CONNECT body laid out up to the client identifier: protocol name,
version byte, connect-flags byte, two keep-alive bytes, length-prefixed client
identifier, then arbitrary following bytes. -/
def connectStream (pn : List Nat) (v cf k1 k2 : Nat) (cid rest : List Nat) :
    List Nat :=
  writeUint16 pn.length ++ pn ++
    (v :: cf :: k1 :: k2 :: (writeUint16 cid.length ++ cid ++ rest))

/-- The PUBLISH body size `PublishMessage.Encode` computes. -/
def publishTotal (m : PublishMessage) : Nat :=
  2 + m.topic.length + m.payload.length
    + (if pubQoS m.header ≠ 0 then 2 else 0)

/-- A QoS-1 Publish message with packet identifier 7. -/
def c6msg : PublishMessage :=
  { header := { mtype := 3, flags := 2, remlen := 0 },
    packetId := 7, topic := [97], payload := [1] }

/-- The round-trip property of one packet: `Encode` into an empty buffer
succeeds, `Decode` on a fresh packet of the same wire type accepts the
produced bytes and returns exactly the encoded (remaining-length-updated)
packet, and re-encoding that packet reproduces the same count and bytes. -/
def RoundTrips (p : Packet) : Prop :=
  ∃ n n2 p2 bs,
    Packet.encode p [] = (some (n, p2), bs) ∧
    Packet.decodeAs p.ptype bs = .ok (p2, n2) ∧
    Packet.encode p2 [] = (some (n, p2), bs)

/-- A Puback message with packet identifier 7. -/
def c1pk : AckMessage :=
  { header := { mtype := 4, flags := 0, remlen := 0 }, packetId := 7 }

/-- A Connect message with the username flag set and the password flag unset
(protocol "MQTT" version 4, clean session, client id "a", username "u"). -/
def cexC1 : ConnectMessage :=
  { header := { mtype := 1, flags := 0, remlen := 0 },
    connectFlags := 130, version := 4, keepAlive := 0,
    protoName := [77, 81, 84, 84], clientId := [97],
    willTopic := [], willMessage := [], username := [117], password := [] }

/-! ## Primitive round-trip lemmas -/

theorem readUint16_write (n : Nat) (hn : n < 65536) (rest : List Nat) :
    readUint16 (writeUint16 n ++ rest) = .ok (n, rest) := by
  have h : n / 256 % 256 * 256 + n % 256 = n := by omega
  simp [readUint16, writeUint16, h]

theorem writeLPBytes_some (b : List Nat) (h : b.length ≤ maxLPString) :
    writeLPBytes b = some (writeUint16 b.length ++ b) := by
  simp [writeLPBytes, Nat.not_lt.mpr h]

theorem readLPBytes_write (b rest : List Nat) (h : b.length ≤ maxLPString) :
    readLPBytes (writeUint16 b.length ++ b ++ rest) = .ok (b, 2 + b.length, rest) := by
  have hl : b.length < 65536 := by
    have := h; simp [maxLPString] at this; omega
  rw [List.append_assoc]
  simp only [readLPBytes, readUint16_write _ hl]
  rw [if_neg (by simp)]
  rw [List.take_left, List.drop_left]

theorem writeVarintLoop_eq1 (x : Nat) (h : x < 128) :
    writeVarintLoop x = [x] := by
  rw [writeVarintLoop, if_pos h]

theorem writeVarintLoop_eq2 (x : Nat) (h1 : 128 ≤ x) (h2 : x < 16384) :
    writeVarintLoop x = [x % 128 + 128, x / 128] := by
  rw [writeVarintLoop, if_neg (by omega), if_pos (by omega)]

theorem writeVarintLoop_eq3 (x : Nat) (h1 : 16384 ≤ x) (h2 : x < 2097152) :
    writeVarintLoop x = [x % 128 + 128, x / 128 % 128 + 128, x / 128 / 128] := by
  rw [writeVarintLoop, if_neg (by omega), if_neg (by omega), if_pos (by omega)]

theorem writeVarintLoop_eq4 (x : Nat) (h1 : 2097152 ≤ x) (h2 : x < 268435456) :
    writeVarintLoop x =
      [x % 128 + 128, x / 128 % 128 + 128, x / 128 / 128 % 128 + 128,
       x / 128 / 128 / 128] := by
  rw [writeVarintLoop, if_neg (by omega), if_neg (by omega), if_neg (by omega)]

theorem readVarint32_write (x : Nat) (hx : x ≤ maxRemainingLength) (rest : List Nat) :
    readVarint32 (writeVarintLoop x ++ rest) = .ok (x, (writeVarintLoop x).length) := by
  have hmax : x < 268435456 := by
    have := hx; simp [maxRemainingLength] at this; omega
  by_cases h1 : x < 128
  · have e : x % 256 = x := Nat.mod_eq_of_lt (by omega)
    rw [writeVarintLoop_eq1 _ h1]
    simp [readVarint32, e, h1]
  · by_cases h2 : x < 16384
    · rw [writeVarintLoop_eq2 _ (by omega) h2]
      simp only [readVarint32, List.cons_append, List.nil_append, List.length_cons,
        List.length_nil]
      rw [if_neg (by omega), if_pos (by omega)]
      simp only [Except.ok.injEq, Prod.mk.injEq]
      exact ⟨by omega, by trivial⟩
    · by_cases h3 : x < 2097152
      · rw [writeVarintLoop_eq3 _ (by omega) h3]
        simp only [readVarint32, List.cons_append, List.nil_append, List.length_cons,
          List.length_nil]
        rw [if_neg (by omega), if_neg (by omega), if_pos (by omega)]
        simp only [Except.ok.injEq, Prod.mk.injEq]
        exact ⟨by omega, by trivial⟩
      · rw [writeVarintLoop_eq4 _ (by omega) (by omega)]
        simp only [readVarint32, List.cons_append, List.nil_append, List.length_cons,
          List.length_nil]
        rw [if_neg (by omega), if_neg (by omega), if_neg (by omega), if_pos (by omega)]
        simp only [Except.ok.injEq, Prod.mk.injEq]
        exact ⟨by omega, by trivial⟩

theorem headerByte_eq (h : FixedHeader) (ht : h.mtype < 16) (hf : h.flags < 16) :
    headerByte h = h.mtype * 16 + h.flags := by
  have H : ∀ t : Fin 16, ∀ f : Fin 16,
      Nat.lor (t.val * 16) f.val = t.val * 16 + f.val := by decide
  have e : h.mtype * 16 % 256 = h.mtype * 16 := by omega
  rw [headerByte, e]
  exact H ⟨h.mtype, ht⟩ ⟨h.flags, hf⟩

theorem fixedHeaderEncode_valid (h : FixedHeader) (oldBuf : List Nat)
    (ht1 : 0 < h.mtype) (ht2 : h.mtype < 15) (hr : h.remlen ≤ maxRemainingLength) :
    fixedHeaderEncode h oldBuf =
      (some (1 + (writeVarintLoop h.remlen).length),
       headerByte h :: writeVarintLoop h.remlen) := by
  have hv : validMessageType h.mtype = true := by
    simp [validMessageType]; omega
  simp [fixedHeaderEncode, writeVarint32, hv, Nat.not_lt.mpr hr]

theorem fixedHeaderDecode_encoded (t f r : Nat) (body rest : List Nat)
    (ht1 : 0 < t) (ht2 : t < 15) (hf : f < 16)
    (hfl : t ≠ 3 → f = defaultFlags t) (hq : t = 3 → ValidQos (f / 2 % 4) = true)
    (hr : r ≤ maxRemainingLength) (hb : body.length = r) :
    fixedHeaderDecode t ((t * 16 + f) :: (writeVarintLoop r ++ (body ++ rest))) =
      .ok ({ mtype := t, flags := f, remlen := r }, body,
           1 + (writeVarintLoop r).length) := by
  have e1 : (t * 16 + f) / 16 % 16 = t := by omega
  have e2 : (t * 16 + f) % 16 = f := by omega
  have hv : validMessageType t = true := by
    simp [validMessageType]; omega
  simp only [fixedHeaderDecode, e1, e2, hv, PUBLISH]
  rw [if_neg (by simp), if_neg (by simp), if_neg (by tauto), if_neg (by tauto)]
  rw [readVarint32_write _ hr]
  simp only [List.drop_left, hb ▸ List.take_left body rest, hb ▸ List.drop_left body rest]
  rw [if_neg (by simp [List.length_append]; omega), if_neg (by omega)]

/-! ## Claim C4: varint boundaries -/

/-- C4 counterexample: the byte sequence `[0, 128, 128, 128]` has its 4th
byte's continuation bit set, yet `readVarint32` succeeds on it (the first byte
already terminates the varint), refuting the claim's universally quantified
rejection clause. -/
theorem C4_counterexample : readVarint32 [0, 128, 128, 128] = .ok (0, 1) := by
  decide

/-- C4 (amended): the stated boundary values round-trip through exactly
1,1,2,2,3,3,4,4 bytes, 268435456 is rejected on encode, and a byte sequence
whose first three bytes carry the continuation bit and whose 4th byte also
carries it is rejected on decode (the 4th byte is examined only when decoding
reaches it). -/
theorem C4_varint_boundary :
    (writeVarint32 0 = some [0] ∧ readVarint32 [0] = .ok (0, 1)) ∧
    (writeVarint32 127 = some [127] ∧ readVarint32 [127] = .ok (127, 1)) ∧
    (writeVarint32 128 = some [128, 1] ∧ readVarint32 [128, 1] = .ok (128, 2)) ∧
    (writeVarint32 16383 = some [255, 127] ∧
      readVarint32 [255, 127] = .ok (16383, 2)) ∧
    (writeVarint32 16384 = some [128, 128, 1] ∧
      readVarint32 [128, 128, 1] = .ok (16384, 3)) ∧
    (writeVarint32 2097151 = some [255, 255, 127] ∧
      readVarint32 [255, 255, 127] = .ok (2097151, 3)) ∧
    (writeVarint32 2097152 = some [128, 128, 128, 1] ∧
      readVarint32 [128, 128, 128, 1] = .ok (2097152, 4)) ∧
    (writeVarint32 268435455 = some [255, 255, 255, 127] ∧
      readVarint32 [255, 255, 255, 127] = .ok (268435455, 4)) ∧
    writeVarint32 268435456 = none ∧
    (∀ b0 b1 b2 b3 rest, 128 ≤ b0 % 256 → 128 ≤ b1 % 256 → 128 ≤ b2 % 256 →
      128 ≤ b3 % 256 →
      readVarint32 (b0 :: b1 :: b2 :: b3 :: rest) = .error .malformedVarint) := by
  refine ⟨by decide, by decide, by decide, by decide, by decide, by decide,
    by decide, by decide, by decide, ?_⟩
  intro b0 b1 b2 b3 rest h0 h1 h2 h3
  simp only [readVarint32]
  rw [if_neg (by omega), if_neg (by omega), if_neg (by omega), if_neg (by omega)]

/-- Witness for C4: the rejection clause applied at a concrete sequence. -/
theorem C4_varint_boundary_witness :
    readVarint32 [128, 129, 130, 131] = .error .malformedVarint :=
  C4_varint_boundary.2.2.2.2.2.2.2.2.2 128 129 130 131 []
    (by norm_num) (by norm_num) (by norm_num) (by norm_num)

/-! ## Claim C7: fixed-header flag validation -/

/-- C7: for every non-PUBLISH type the flags must equal that type's fixed
default, else decode fails; for PUBLISH, a flags nibble encoding QoS 3 fails,
and any QoS 0/1/2 passes the flags check (shown by a complete decode with an
empty body). -/
theorem C7_header_flags :
    (∀ t f rest, 0 < t → t < 15 → t ≠ 3 → f < 16 → f ≠ defaultFlags t →
      fixedHeaderDecode t ((t * 16 + f) :: rest) = .error .invalidFlags) ∧
    (∀ f rest, f < 16 → f / 2 % 4 = 3 →
      fixedHeaderDecode 3 ((3 * 16 + f) :: rest) = .error .invalidPublishQos) ∧
    (∀ f, f < 16 → f / 2 % 4 ≠ 3 →
      fixedHeaderDecode 3 ((3 * 16 + f) :: [0]) =
        .ok ({ mtype := 3, flags := f, remlen := 0 }, [], 2)) := by
  refine ⟨?_, ?_, ?_⟩
  · intro t f rest ht1 ht2 ht3 hf hfd
    have e1 : (t * 16 + f) / 16 % 16 = t := by omega
    have e2 : (t * 16 + f) % 16 = f := by omega
    have hv : validMessageType t = true := by
      simp [validMessageType]; omega
    simp only [fixedHeaderDecode, e1, e2, hv, PUBLISH]
    rw [if_neg (by simp), if_neg (by simp), if_pos ⟨ht3, hfd⟩]
  · intro f rest hf hq3
    have e1 : (3 * 16 + f) / 16 % 16 = 3 := by omega
    have e2 : (3 * 16 + f) % 16 = f := by omega
    simp only [fixedHeaderDecode, e1, e2, PUBLISH]
    rw [if_neg (by simp [validMessageType]), if_neg (by simp),
      if_neg (by simp), if_pos ⟨by trivial, by rw [hq3]; decide⟩]
  · intro f hf hq
    have e1 : (3 * 16 + f) / 16 % 16 = 3 := by omega
    have e2 : (3 * 16 + f) % 16 = f := by omega
    have hvq : ValidQos (f / 2 % 4) = true := by
      simp [ValidQos]; omega
    simp only [fixedHeaderDecode, e1, e2, PUBLISH]
    rw [if_neg (by simp [validMessageType]), if_neg (by simp),
      if_neg (by simp), if_neg (by simp [hvq])]
    simp [readVarint32]

/-- Witness for C7: a PUBACK header byte with flags 1 is rejected. -/
theorem C7_header_flags_witness :
    fixedHeaderDecode 4 ((4 * 16 + 1) :: [0]) = .error .invalidFlags :=
  C7_header_flags.1 4 1 [0] (by norm_num) (by norm_num) (by norm_num)
    (by norm_num) (by decide)

/-! ## Claim C3: declared remaining length vs body consumption -/

/-- C3 counterexample: a PUBACK with declared remaining length 4 (two trailing
garbage bytes beyond the 2-byte packet identifier) and a CONNACK with declared
remaining length 3 (one trailing byte) are both accepted, not rejected. -/
theorem C3_counterexample :
    ackDecode 4 [64, 4, 0, 7, 9, 9] =
      .ok ({ header := { mtype := 4, flags := 0, remlen := 4 }, packetId := 7 }, 4) ∧
    connackDecode [32, 3, 0, 0, 9] =
      .ok ({ header := { mtype := 2, flags := 0, remlen := 3 },
             sessionPresent := false, returnCode := 0 }, 4) :=
  ⟨by decide, by decide⟩

/-- C3 (amended): Puback and Connack do not check for trailing body bytes — a
declared remaining length larger than the fixed body size, with that many body
bytes supplied, decodes successfully with the extra bytes ignored; only the
truncated direction (fewer available bytes than the declared remaining length)
fails. -/
theorem C3_trailing_bytes :
    (∀ r garbage p1 p2, 2 ≤ r → r ≤ maxRemainingLength → garbage.length = r - 2 →
      ackDecode 4 ((4 * 16 + 0) :: (writeVarintLoop r ++ ((p1 :: p2 :: garbage) ++ []))) =
        .ok ({ header := { mtype := 4, flags := 0, remlen := r },
               packetId := p1 * 256 + p2 },
             1 + (writeVarintLoop r).length + 2)) ∧
    (∀ r garbage b0 b1, 2 ≤ r → r ≤ maxRemainingLength → garbage.length = r - 2 →
      Nat.land b0 254 = 0 → b1 ≤ 5 →
      connackDecode ((2 * 16 + 0) :: (writeVarintLoop r ++ ((b0 :: b1 :: garbage) ++ []))) =
        .ok ({ header := { mtype := 2, flags := 0, remlen := r },
               sessionPresent := b0 % 2 == 1, returnCode := b1 },
             1 + (writeVarintLoop r).length + 2)) ∧
    (∀ t f r rest, 0 < t → t < 15 → f < 16 → (t ≠ 3 → f = defaultFlags t) →
      (t = 3 → ValidQos (f / 2 % 4) = true) → r ≤ maxRemainingLength →
      rest.length < r →
      fixedHeaderDecode t ((t * 16 + f) :: (writeVarintLoop r ++ rest)) =
        .error .insufficientData) := by
  refine ⟨?_, ?_, ?_⟩
  · intro r garbage p1 p2 h2 hmax hg
    have hhd := fixedHeaderDecode_encoded 4 0 r (p1 :: p2 :: garbage) []
      (by norm_num) (by norm_num) (by norm_num) (by intro _; rfl)
      (by intro h; cases h) hmax (by simp; omega)
    simp only [ackDecode, hhd, readUint16]
  · intro r garbage b0 b1 h2 hmax hg hb0 hb1
    have hhd := fixedHeaderDecode_encoded 2 0 r (b0 :: b1 :: garbage) []
      (by norm_num) (by norm_num) (by norm_num) (by intro _; rfl)
      (by intro h; cases h) hmax (by simp; omega)
    simp only [connackDecode, CONNACK, hhd]
    rw [if_neg (by simp [hb0]), if_neg (by omega)]
  · intro t f r rest ht1 ht2 hf hfl hq hmax hshort
    have e1 : (t * 16 + f) / 16 % 16 = t := by omega
    have e2 : (t * 16 + f) % 16 = f := by omega
    have hv : validMessageType t = true := by
      simp [validMessageType]; omega
    simp only [fixedHeaderDecode, e1, e2, hv, PUBLISH]
    rw [if_neg (by simp), if_neg (by simp), if_neg (by tauto), if_neg (by tauto)]
    rw [readVarint32_write _ hmax]
    simp only [List.drop_left]
    rw [if_pos hshort]

/-- Witness for C3: the Puback clause at remaining length 5 with three
trailing bytes, and the truncated clause at a too-short Connect stream. -/
theorem C3_trailing_bytes_witness :
    ackDecode 4 ((4 * 16 + 0) :: (writeVarintLoop 5 ++ ((0 :: 9 :: [1, 2, 3]) ++ []))) =
      .ok ({ header := { mtype := 4, flags := 0, remlen := 5 }, packetId := 0 * 256 + 9 },
           1 + (writeVarintLoop 5).length + 2) ∧
    fixedHeaderDecode 1 ((1 * 16 + 0) :: (writeVarintLoop 3 ++ [7])) =
      .error .insufficientData :=
  ⟨C3_trailing_bytes.1 5 [1, 2, 3] 0 9 (by norm_num)
      (by norm_num [maxRemainingLength]) (by norm_num),
   C3_trailing_bytes.2.2 1 0 3 [7] (by norm_num) (by norm_num) (by norm_num)
      (by intro _; rfl) (by intro h; cases h)
      (by norm_num [maxRemainingLength]) (by norm_num)⟩

/-! ## Subscribe/unsubscribe loop lemmas -/

theorem writePairsBuf_eq (ts : List (List Nat)) (qs : List Nat)
    (hlen : ts.length = qs.length)
    (hts : ∀ t ∈ ts, t.length ≤ maxLPString) (buf : List Nat) (acc : Nat) :
    writePairsBuf ts qs buf acc =
      (some (acc + (ts.map (fun t => 2 + t.length + 1)).sum),
       buf ++ pairsBytes ts qs) := by
  induction ts generalizing qs buf acc with
  | nil =>
    cases qs with
    | nil => simp [writePairsBuf, pairsBytes]
    | cons q qs => simp [writePairsBuf, pairsBytes]
  | cons t ts ih =>
    cases qs with
    | nil => simp at hlen
    | cons q qs =>
      simp only [writePairsBuf, writeLPBytes_some t (hts t (by simp))]
      rw [ih qs (by simpa using hlen) (fun x hx => hts x (by simp [hx]))]
      simp only [pairsBytes, lpBytes, List.map_cons, List.sum_cons,
        List.append_assoc, List.cons_append, List.nil_append,
        List.length_append, writeUint16, List.length_cons, List.length_nil,
        Prod.mk.injEq, Option.some.injEq]
      constructor
      · omega
      · trivial

theorem readTopicsQos_pairs (ts : List (List Nat)) (qs : List Nat)
    (hlen : ts.length = qs.length)
    (hts : ∀ t ∈ ts, t.length ≤ maxLPString) :
    readTopicsQos (pairsBytes ts qs) =
      .ok (ts, qs, (ts.map (fun t => 2 + t.length + 1)).sum) := by
  induction ts generalizing qs with
  | nil =>
    cases qs with
    | nil => rw [readTopicsQos]; simp [pairsBytes]
    | cons q qs => simp at hlen
  | cons t ts ih =>
    cases qs with
    | nil => simp at hlen
    | cons q qs =>
      have hread : readLPBytes (pairsBytes (t :: ts) (q :: qs)) =
          .ok (t, 2 + t.length, q :: pairsBytes ts qs) := by
        have : pairsBytes (t :: ts) (q :: qs) =
            writeUint16 t.length ++ t ++ (q :: pairsBytes ts qs) := by
          simp [pairsBytes, lpBytes, List.append_assoc]
        rw [this, readLPBytes_write _ _ (hts t (by simp))]
      rw [readTopicsQos]
      rw [dif_neg (by simp [pairsBytes, lpBytes, writeUint16])]
      split
      · rename_i e heq
        rw [hread] at heq
        cases heq
      · rename_i t2 n2 rest2 heq
        rw [hread] at heq
        injection heq with heq
        injection heq with h1 heq
        injection heq with h2 h3
        subst h1
        subst h2
        subst h3
        simp only [ih qs (by simpa using hlen) (fun x hx => hts x (by simp [hx]))]
        simp

/-! ## Claim C9: Subscribe stores requested-QoS bytes verbatim -/

/-- C9: `SubscribeMessage.Decode` stores each per-topic requested-QoS byte
verbatim, with no validation (any byte, e.g. 3 or 0xFF, is accepted), while
`AddTopic` rejects a QoS other than 0, 1, 2. -/
theorem C9_subscribe_qos_verbatim :
    (∀ t q p1 p2, t.length ≤ maxLPString →
      subscribeDecode ((8 * 16 + 2) :: (writeVarintLoop (2 + (2 + t.length + 1)) ++
          ((p1 :: p2 :: (lpBytes t ++ q :: [])) ++ []))) =
        .ok ({ header := { mtype := 8, flags := 2, remlen := 2 + (2 + t.length + 1) },
               packetId := p1 * 256 + p2, topics := [t], qos := [q] },
             1 + (writeVarintLoop (2 + (2 + t.length + 1))).length + 2
               + (2 + t.length + 1))) ∧
    (∀ m topic q, ValidQos q = false → subscribeAddTopic m topic q = none) := by
  constructor
  · intro t q p1 p2 ht
    have hmax : 2 + (2 + t.length + 1) ≤ maxRemainingLength := by
      have := ht; simp [maxLPString] at this; simp [maxRemainingLength]; omega
    have hpairs : lpBytes t ++ q :: [] = pairsBytes [t] [q] := by
      simp [pairsBytes]
    have hhd := fixedHeaderDecode_encoded 8 2 (2 + (2 + t.length + 1))
      (p1 :: p2 :: (lpBytes t ++ q :: [])) []
      (by norm_num) (by norm_num) (by norm_num) (by intro _; rfl)
      (by intro h; cases h) hmax
      (by simp [lpBytes, writeUint16]; omega)
    simp only [subscribeDecode, SUBSCRIBE, hhd, readUint16]
    rw [hpairs]
    rw [readTopicsQos_pairs [t] [q] (by simp) (by simpa using ht)]
    simp [pairsBytes, lpBytes, writeUint16]
  · intro m topic q hq
    simp [subscribeAddTopic, hq]

/-- Witness for C9: a Subscribe body carrying requested QoS 3 decodes, while
`AddTopic` refuses QoS 3. -/
theorem C9_subscribe_qos_verbatim_witness :
    subscribeDecode ((8 * 16 + 2) :: (writeVarintLoop (2 + (2 + ([115] : List Nat).length + 1)) ++
        ((0 :: 7 :: (lpBytes [115] ++ 3 :: [])) ++ []))) =
      .ok ({ header := { mtype := 8, flags := 2,
                         remlen := 2 + (2 + ([115] : List Nat).length + 1) },
             packetId := 0 * 256 + 7, topics := [[115]], qos := [3] },
           1 + (writeVarintLoop (2 + (2 + ([115] : List Nat).length + 1))).length + 2
             + (2 + ([115] : List Nat).length + 1)) ∧
    subscribeAddTopic { header := { mtype := 8, flags := 2, remlen := 0 },
                        packetId := 0, topics := [], qos := [] } [115] 3 = none :=
  ⟨C9_subscribe_qos_verbatim.1 [115] 3 0 7 (by norm_num [maxLPString]),
   C9_subscribe_qos_verbatim.2 _ [115] 3 (by decide)⟩

/-! ## Claim C10: Subscribe encode discards the SetRemainingLength error -/

theorem setRemainingLength_toInt32_none (h : FixedHeader) (n : Nat)
    (h1 : maxRemainingLength < n) (h2 : n < 2147483648) :
    setRemainingLength h (toInt32 n) = none := by
  have e : toInt32 n = (n : Int) := by
    rw [toInt32, if_pos (by omega)]
    omega
  rw [setRemainingLength, e, if_pos (Or.inl (by exact_mod_cast h1))]

/-- C10: when a Subscribe message's computed body size exceeds the maximum
remaining length, Encode still succeeds; the emitted remaining length differs
from the body's byte count; whenever `SetRemainingLength` rejects the value its
error is discarded and the header keeps its previous remaining length (which
it always does while the size fits in a positive int32). -/
theorem C10_subscribe_overflow (m : SubscribeMessage)
    (hover : maxRemainingLength < subscribeBodyLen m)
    (hrem : m.header.remlen ≤ maxRemainingLength)
    (ht1 : 0 < m.header.mtype) (ht2 : m.header.mtype < 15)
    (hlen : m.topics.length = m.qos.length)
    (hts : ∀ t ∈ m.topics, t.length ≤ maxLPString) :
    ∃ n : Nat, ∃ p2 : SubscribeMessage,
      subscribeEncode m [] =
        (some (n, p2),
         headerByte p2.header :: (writeVarintLoop p2.header.remlen ++
           (writeUint16 m.packetId ++ pairsBytes m.topics m.qos))) ∧
      p2.header.remlen ≠ subscribeBodyLen m ∧
      p2.header.remlen ≤ maxRemainingLength ∧
      (setRemainingLength m.header (toInt32 (subscribeBodyLen m)) = none →
        p2.header.remlen = m.header.remlen) ∧
      (subscribeBodyLen m < 2147483648 →
        setRemainingLength m.header (toInt32 (subscribeBodyLen m)) = none) := by
  have himp : subscribeBodyLen m < 2147483648 →
      setRemainingLength m.header (toInt32 (subscribeBodyLen m)) = none :=
    fun hlt => setRemainingLength_toInt32_none m.header _ hover hlt
  rcases hset : setRemainingLength m.header (toInt32 (subscribeBodyLen m)) with _ | h2
  · refine ⟨1 + (writeVarintLoop m.header.remlen).length + 2
        + (m.topics.map (fun t => 2 + t.length + 1)).sum,
      { m with header := m.header }, ?_, ?_, hrem, fun _ => rfl, fun _ => rfl⟩
    · simp only [subscribeEncode, hset,
        fixedHeaderEncode_valid m.header [] ht1 ht2 hrem,
        writePairsBuf_eq m.topics m.qos hlen hts]
      simp [List.append_assoc]
    · simp only []
      omega
  · have hle : h2.remlen ≤ maxRemainingLength := by
      rw [setRemainingLength] at hset
      split at hset
      · cases hset
      · rename_i hcond
        injection hset with hset
        rw [← hset]
        simp only []
        push_neg at hcond
        omega
    have hmt : h2.mtype = m.header.mtype := by
      rw [setRemainingLength] at hset
      split at hset
      · cases hset
      · injection hset with hset
        rw [← hset]
    refine ⟨1 + (writeVarintLoop h2.remlen).length + 2
        + (m.topics.map (fun t => 2 + t.length + 1)).sum,
      { m with header := h2 },
      ?_, by simp only []; omega, hle,
      (fun hnone => by cases hnone),
      (fun hlt => by rw [← hset]; exact himp hlt)⟩
    simp only [subscribeEncode, hset,
      fixedHeaderEncode_valid h2 [] (hmt ▸ ht1) (hmt ▸ ht2) hle,
      writePairsBuf_eq m.topics m.qos hlen hts]
    simp [List.append_assoc]

/-- Witness for C10: the overflow theorem applied to a Subscribe message with
89478486 empty topics (body size 268435460, above the 268435455 maximum). -/
theorem C10_subscribe_overflow_witness :
    ∃ n : Nat, ∃ p2 : SubscribeMessage,
      subscribeEncode c10msg [] =
        (some (n, p2),
         headerByte p2.header :: (writeVarintLoop p2.header.remlen ++
           (writeUint16 c10msg.packetId ++ pairsBytes c10msg.topics c10msg.qos))) ∧
      p2.header.remlen ≠ subscribeBodyLen c10msg ∧
      p2.header.remlen ≤ maxRemainingLength ∧
      (setRemainingLength c10msg.header (toInt32 (subscribeBodyLen c10msg)) = none →
        p2.header.remlen = c10msg.header.remlen) ∧
      (subscribeBodyLen c10msg < 2147483648 →
        setRemainingLength c10msg.header (toInt32 (subscribeBodyLen c10msg)) = none) := by
  have htop : c10msg.topics = List.replicate 89478486 ([] : List Nat) := rfl
  have hqos : c10msg.qos = List.replicate 89478486 0 := rfl
  have e3 : subscribeBodyLen c10msg =
      2 + (List.replicate 89478486 (2 + ([] : List Nat).length + 1)).sum := by
    rw [subscribeBodyLen, htop, List.map_replicate]
  have e4 : (List.replicate 89478486 (2 + ([] : List Nat).length + 1)).sum =
      89478486 * (2 + ([] : List Nat).length + 1) := by
    rw [List.sum_replicate, smul_eq_mul]
  exact C10_subscribe_overflow c10msg
    (by rw [e3, e4]; norm_num [maxRemainingLength])
    (Nat.zero_le _)
    (by decide)
    (by decide)
    (by rw [htop, hqos, List.length_replicate, List.length_replicate])
    (by intro t ht
        rw [htop] at ht
        rw [List.eq_of_mem_replicate ht]
        exact Nat.zero_le _)

/-! ## Claim C2: username/password flag coupling in Connect decode -/

theorem connectDecodeAuth_ok_flags {h : FixedHeader} {pn : List Nat}
    {v cf ka : Nat} {cid wt wm : List Nat} {acc : Nat} {r : List Nat}
    {m : ConnectMessage} {n : Nat}
    (hok : connectDecodeAuth h pn v cf ka cid wt wm acc r = .ok (m, n)) :
    m.connectFlags = cf := by
  unfold connectDecodeAuth at hok
  repeat' split at hok
  all_goals try exact Except.noConfusion hok
  all_goals
    injection hok with h1
    injection h1 with h2 h3
    rw [← h2]

theorem connectDecodeWill_ok_flags {h : FixedHeader} {pn : List Nat}
    {v cf ka : Nat} {cid : List Nat} {acc : Nat} {r : List Nat}
    {m : ConnectMessage} {n : Nat}
    (hok : connectDecodeWill h pn v cf ka cid acc r = .ok (m, n)) :
    m.connectFlags = cf := by
  unfold connectDecodeWill at hok
  repeat' split at hok
  all_goals try exact Except.noConfusion hok
  all_goals exact connectDecodeAuth_ok_flags hok

theorem connectDecodeMessage_username_implies_password {h : FixedHeader}
    {body : List Nat} {m : ConnectMessage} {n : Nat}
    (hok : connectDecodeMessage h body = .ok (m, n))
    (huf : usernameFlagB m.connectFlags = true) :
    passwordFlagB m.connectFlags = true := by
  unfold connectDecodeMessage at hok
  repeat' split at hok
  all_goals try exact Except.noConfusion hok
  all_goals
    have hcf := connectDecodeWill_ok_flags hok
    rw [hcf] at huf ⊢
    tauto

/-- C2 counterexample: a Connect byte sequence whose connect-flags byte is 66
(password flag set, username flag unset) decodes successfully — the claim says
such a sequence must be rejected. -/
theorem C2_counterexample :
    connectDecode [16, 16, 0, 4, 77, 81, 84, 84, 4, 66, 0, 0, 0, 1, 98, 0, 1, 112] =
      .ok ({ header := { mtype := 1, flags := 0, remlen := 16 },
             connectFlags := 66, version := 4, keepAlive := 0,
             protoName := [77, 81, 84, 84], clientId := [98],
             willTopic := [], willMessage := [], username := [],
             password := [112] }, 18) := by
  decide

/-- C2 (amended, with the roles of the two flags swapped): every Connect
sequence whose connect-flags byte has the username flag set and the password
flag unset fails to decode (no successful decode carries that combination, and
a concrete such sequence fails with the username-without-password error),
while a sequence with the password flag set and the username flag unset is not
rejected for that combination alone. -/
theorem C2_username_password_flags :
    (∀ src m n, connectDecode src = .ok (m, n) →
      usernameFlagB m.connectFlags = true → passwordFlagB m.connectFlags = true) ∧
    connectDecode [16, 16, 0, 4, 77, 81, 84, 84, 4, 130, 0, 0, 0, 1, 97, 0, 1, 117] =
      .error .usernameWithoutPassword ∧
    connectDecode [16, 16, 0, 4, 77, 81, 84, 84, 4, 66, 0, 0, 0, 1, 97, 0, 1, 112] =
      .ok ({ header := { mtype := 1, flags := 0, remlen := 16 },
             connectFlags := 66, version := 4, keepAlive := 0,
             protoName := [77, 81, 84, 84], clientId := [97],
             willTopic := [], willMessage := [], username := [],
             password := [112] }, 18) := by
  refine ⟨?_, by decide, by decide⟩
  intro src m n hok huf
  unfold connectDecode at hok
  split at hok
  · exact Except.noConfusion hok
  · split at hok
    · exact Except.noConfusion hok
    · rename_i hmsg
      injection hok with h1
      injection h1 with h2 h3
      rw [← h2] at huf ⊢
      exact connectDecodeMessage_username_implies_password hmsg huf

/-- Witness for C2: the first clause applied to a successfully decoded
sequence whose username flag is set. -/
theorem C2_username_password_flags_witness :
    passwordFlagB 194 = true :=
  C2_username_password_flags.1
    [16, 19, 0, 4, 77, 81, 84, 84, 4, 194, 0, 0, 0, 1, 97, 0, 1, 117, 0, 1, 112]
    { header := { mtype := 1, flags := 0, remlen := 19 },
      connectFlags := 194, version := 4, keepAlive := 0,
      protoName := [77, 81, 84, 84], clientId := [97],
      willTopic := [], willMessage := [], username := [117],
      password := [112] } 21 (by decide) (by decide)

/-! ## Claim C5: Connect client-identifier rules -/

/-- C5: with the parse reaching the client-identifier checks, an empty client
identifier with clean-session unset is rejected as identifier-rejected; an
empty identifier with clean-session set is accepted (complete decode shown);
and a nonempty identifier failing the `[0-9a-zA-Z]` character check is
rejected as identifier-rejected. -/
theorem C5_client_id_rules :
    (∀ pn (v cf k1 k2 : Nat) (cid rest : List Nat),
      pn.length ≤ maxLPString → cid.length ≤ maxLPString →
      (connectStream pn v cf k1 k2 cid rest).length ≤ maxRemainingLength →
      supportedVersionName v = some pn →
      cf % 2 = 0 → willQosOf cf ≤ 2 →
      (willFlagB cf = true ∨ (willRetainB cf = false ∧ willQosOf cf = 0)) →
      (usernameFlagB cf = true → passwordFlagB cf = true) →
      cid = [] → cleanSessionFlag cf = false →
      connectDecode ((1 * 16 + 0) ::
          (writeVarintLoop (connectStream pn v cf k1 k2 cid rest).length ++
            (connectStream pn v cf k1 k2 cid rest ++ []))) =
        .error .identifierRejected) ∧
    (∀ pn (v cf k1 k2 : Nat) (cid rest : List Nat),
      pn.length ≤ maxLPString → cid.length ≤ maxLPString →
      (connectStream pn v cf k1 k2 cid rest).length ≤ maxRemainingLength →
      supportedVersionName v = some pn →
      cf % 2 = 0 → willQosOf cf ≤ 2 →
      (willFlagB cf = true ∨ (willRetainB cf = false ∧ willQosOf cf = 0)) →
      (usernameFlagB cf = true → passwordFlagB cf = true) →
      cid ≠ [] → ValidClientId cid = false →
      connectDecode ((1 * 16 + 0) ::
          (writeVarintLoop (connectStream pn v cf k1 k2 cid rest).length ++
            (connectStream pn v cf k1 k2 cid rest ++ []))) =
        .error .identifierRejected) ∧
    connectDecode [16, 12, 0, 4, 77, 81, 84, 84, 4, 2, 0, 10, 0, 0] =
      .ok ({ header := { mtype := 1, flags := 0, remlen := 12 },
             connectFlags := 2, version := 4, keepAlive := 10,
             protoName := [77, 81, 84, 84], clientId := [],
             willTopic := [], willMessage := [], username := [],
             password := [] }, 14) := by
  have main : ∀ pn (v cf k1 k2 : Nat) (cid rest : List Nat),
      pn.length ≤ maxLPString → cid.length ≤ maxLPString →
      (connectStream pn v cf k1 k2 cid rest).length ≤ maxRemainingLength →
      supportedVersionName v = some pn →
      cf % 2 = 0 → willQosOf cf ≤ 2 →
      (willFlagB cf = true ∨ (willRetainB cf = false ∧ willQosOf cf = 0)) →
      (usernameFlagB cf = true → passwordFlagB cf = true) →
      ((cid.length = 0 ∧ ¬ cleanSessionFlag cf = true) ∨
        (¬ cid.length = 0 ∧ 0 < cid.length ∧ ¬ ValidClientId cid = true)) →
      connectDecode ((1 * 16 + 0) ::
          (writeVarintLoop (connectStream pn v cf k1 k2 cid rest).length ++
            (connectStream pn v cf k1 k2 cid rest ++ []))) =
        .error .identifierRejected := by
    intro pn v cf k1 k2 cid rest hpn hcid hmax hver hres hwq hwill hufpf hcase
    have hhd := fixedHeaderDecode_encoded 1 0
      (connectStream pn v cf k1 k2 cid rest).length
      (connectStream pn v cf k1 k2 cid rest) []
      (by norm_num) (by norm_num) (by norm_num) (fun _ => rfl)
      (by intro h; exact absurd h (by norm_num)) hmax rfl
    simp only [connectDecode, CONNECT, hhd]
    rw [show connectStream pn v cf k1 k2 cid rest =
      writeUint16 pn.length ++ pn ++ (v :: cf :: k1 :: k2 ::
        (writeUint16 cid.length ++ cid ++ rest)) from rfl]
    simp only [connectDecodeMessage, readLPBytes_write pn _ hpn, hver]
    rw [if_neg (by simp)]
    rw [if_neg (by omega)]
    rw [if_neg (by omega)]
    rw [if_neg (by
      rintro ⟨hnwf, hor⟩
      rcases hwill with h | ⟨h1, h2⟩
      · exact hnwf h
      · rcases hor with h3 | h3
        · rw [h1] at h3; cases h3
        · exact h3 h2)]
    rw [if_neg (by rintro ⟨hu, hp⟩; exact hp (hufpf hu))]
    simp only [readUint16, readLPBytes_write cid _ hcid]
    rcases hcase with ⟨hlen, hcs⟩ | ⟨hlen, hpos, hval⟩
    · rw [if_pos ⟨hlen, hcs⟩]
    · rw [if_neg (by rintro ⟨h1, _⟩; exact hlen h1), if_pos ⟨hpos, hval⟩]
  refine ⟨?_, ?_, by decide⟩
  · intro pn v cf k1 k2 cid rest hpn hcid hmax hver hres hwq hwill hufpf hempty hclean
    exact main pn v cf k1 k2 cid rest hpn hcid hmax hver hres hwq hwill hufpf
      (Or.inl ⟨by simp [hempty], by simp [hclean]⟩)
  · intro pn v cf k1 k2 cid rest hpn hcid hmax hver hres hwq hwill hufpf hne hval
    exact main pn v cf k1 k2 cid rest hpn hcid hmax hver hres hwq hwill hufpf
      (Or.inr ⟨by simpa using List.length_pos.mpr hne |>.ne',
        List.length_pos.mpr hne, by simp [hval]⟩)

/-- Witness for C5: an empty client identifier with clean-session unset is
rejected, at a concrete stream. -/
theorem C5_client_id_rules_witness :
    connectDecode ((1 * 16 + 0) ::
        (writeVarintLoop (connectStream [77, 81, 84, 84] 4 0 0 10 [] []).length ++
          (connectStream [77, 81, 84, 84] 4 0 0 10 [] [] ++ []))) =
      .error .identifierRejected :=
  C5_client_id_rules.1 [77, 81, 84, 84] 4 0 0 10 [] []
    (by norm_num [maxLPString]) (by norm_num [maxLPString])
    (by norm_num [connectStream, writeUint16, maxRemainingLength])
    (by decide) (by norm_num) (by decide)
    (Or.inr (by decide)) (by intro h; cases h) rfl rfl

/-! ## Publish round-trip lemmas (claims C6 and C1) -/

theorem setRemainingLength_toInt32_some (h : FixedHeader) (n : Nat)
    (hn : n ≤ maxRemainingLength) :
    setRemainingLength h (toInt32 n) = some { h with remlen := n } := by
  have hlt : n < 2147483648 := by
    have := hn; simp [maxRemainingLength] at this; omega
  have e : toInt32 n = (n : Int) := by
    rw [toInt32, if_pos (by omega)]
    omega
  rw [setRemainingLength, e,
    if_neg (by push_neg; exact ⟨by exact_mod_cast hn, by positivity⟩)]
  simp

theorem publishEncode_eq (m : PublishMessage)
    (htne : ¬ m.topic.length = 0) (hpne : ¬ m.payload.length = 0)
    (htl : m.topic.length ≤ maxLPString)
    (ht1 : 0 < m.header.mtype) (ht2 : m.header.mtype < 15)
    (htot : publishTotal m ≤ maxRemainingLength) :
    publishEncode m [] =
      (some (1 + (writeVarintLoop (publishTotal m)).length + (2 + m.topic.length)
          + (if pubQoS m.header ≠ 0 then 2 else 0) + m.payload.length,
        { m with header := { m.header with remlen := publishTotal m } }),
       headerByte { m.header with remlen := publishTotal m } ::
         (writeVarintLoop (publishTotal m) ++ (lpBytes m.topic ++
           ((if pubQoS m.header ≠ 0 then writeUint16 m.packetId else []) ++
             m.payload)))) := by
  have hset := setRemainingLength_toInt32_some m.header (publishTotal m) htot
  simp only [publishEncode, if_neg htne, if_neg hpne]
  rw [show (2 + m.topic.length + m.payload.length
        + (if pubQoS m.header ≠ 0 then 2 else 0)) = publishTotal m from rfl]
  simp only [hset]
  simp only [fixedHeaderEncode_valid { m.header with remlen := publishTotal m } []
    (by simpa using ht1) (by simpa using ht2) (by simpa using htot)]
  simp only [writeLPBytes_some m.topic htl]
  by_cases hq : pubQoS m.header ≠ 0 <;>
    simp [hq, lpBytes, writeUint16, List.append_assoc] <;> omega

theorem publishDecode_of_encoded (m : PublishMessage)
    (hvt : ValidTopic m.topic = true) (htl : m.topic.length ≤ maxLPString)
    (hpid : m.packetId < 65536) (hq0 : pubQoS m.header = 0 → m.packetId = 0)
    (ht : m.header.mtype = 3) (hf : m.header.flags < 16)
    (hvq : ValidQos (m.header.flags / 2 % 4) = true)
    (htot : publishTotal m ≤ maxRemainingLength) :
    publishDecode (headerByte { m.header with remlen := publishTotal m } ::
        (writeVarintLoop (publishTotal m) ++ (lpBytes m.topic ++
          ((if pubQoS m.header ≠ 0 then writeUint16 m.packetId else []) ++
            m.payload)))) =
      .ok ({ m with header := { m.header with remlen := publishTotal m } },
        1 + (writeVarintLoop (publishTotal m)).length + (2 + m.topic.length)
          + (if pubQoS m.header ≠ 0 then 2 else 0) + m.payload.length) := by
  have hhdr : ({ m.header with remlen := publishTotal m } : FixedHeader) =
      { mtype := 3, flags := m.header.flags, remlen := publishTotal m } := by
    rw [← ht]
  rw [hhdr]
  have hbyte : headerByte
      ({ mtype := 3, flags := m.header.flags, remlen := publishTotal m } : FixedHeader) =
      3 * 16 + m.header.flags := by
    rw [headerByte_eq _ (by norm_num) (by simpa using hf)]
  have hblen : (lpBytes m.topic ++
      ((if pubQoS m.header ≠ 0 then writeUint16 m.packetId else []) ++
        m.payload)).length = publishTotal m := by
    by_cases hq : pubQoS m.header ≠ 0 <;>
      simp [hq, lpBytes, writeUint16, publishTotal] <;> omega
  have hhd := fixedHeaderDecode_encoded 3 m.header.flags (publishTotal m)
    (lpBytes m.topic ++
      ((if pubQoS m.header ≠ 0 then writeUint16 m.packetId else []) ++ m.payload))
    [] (by norm_num) (by norm_num) hf (by intro h; exact absurd rfl h)
    (fun _ => hvq) htot hblen
  simp only [List.append_nil] at hhd
  rw [hbyte]
  simp only [publishDecode, PUBLISH, hhd]
  have hlp : readLPBytes (lpBytes m.topic ++
      ((if pubQoS m.header ≠ 0 then writeUint16 m.packetId else []) ++ m.payload)) =
      .ok (m.topic, 2 + m.topic.length,
        (if pubQoS m.header ≠ 0 then writeUint16 m.packetId else []) ++ m.payload) := by
    rw [show lpBytes m.topic ++
        ((if pubQoS m.header ≠ 0 then writeUint16 m.packetId else []) ++ m.payload) =
        writeUint16 m.topic.length ++ m.topic ++
        ((if pubQoS m.header ≠ 0 then writeUint16 m.packetId else []) ++ m.payload) from by
      simp [lpBytes, List.append_assoc]]
    exact readLPBytes_write _ _ htl
  simp only [hlp]
  rw [if_neg (by simp [hvt])]
  simp only [pubQoS]
  by_cases hq : m.header.flags / 2 % 4 ≠ 0
  · simp only [if_pos hq, readUint16_write m.packetId hpid,
      Except.ok.injEq, Prod.mk.injEq]
  · simp only [if_neg hq, List.nil_append, Except.ok.injEq, Prod.mk.injEq]
    have hp0 : m.packetId = 0 := hq0 (by simpa [pubQoS] using hq)
    exact ⟨by simp [hp0], by omega⟩

/-! ## Claim C6: Publish packet-identifier / QoS coupling -/

/-- C6: the 2-byte packet identifier is present in a Publish encoding exactly
when the QoS in the header flags is nonzero (the `if` in the byte image), and
the decoded packet equals the encoded message — with QoS 1 or 2 the identifier
is written and read back to the same value, with QoS 0 it is neither written
nor consumed (the field stays 0). -/
theorem C6_publish_pid (m : PublishMessage) (hv : PublishValid m) :
    ∃ n : Nat,
      publishEncode m [] =
        (some (n, { m with header := { m.header with remlen := publishTotal m } }),
         headerByte { m.header with remlen := publishTotal m } ::
           (writeVarintLoop (publishTotal m) ++ (lpBytes m.topic ++
             ((if pubQoS m.header ≠ 0 then writeUint16 m.packetId else []) ++
               m.payload)))) ∧
      publishDecode (headerByte { m.header with remlen := publishTotal m } ::
           (writeVarintLoop (publishTotal m) ++ (lpBytes m.topic ++
             ((if pubQoS m.header ≠ 0 then writeUint16 m.packetId else []) ++
               m.payload)))) =
        .ok ({ m with header := { m.header with remlen := publishTotal m } }, n) ∧
      (pubQoS m.header = 0 → m.packetId = 0) := by
  obtain ⟨⟨hmt, hfl, _, hq3⟩, hvt, htl, hpne, hpid, hq0, htot⟩ := hv
  have htne : ¬ m.topic.length = 0 := by
    simp [ValidTopic] at hvt; omega
  have hpay : ¬ m.payload.length = 0 :=
    fun h => hpne (List.length_eq_zero.mp h)
  have hvq : ValidQos (m.header.flags / 2 % 4) = true := hq3 rfl
  exact ⟨_,
    publishEncode_eq m htne hpay htl (by simp [hmt, PUBLISH]) (by simp [hmt, PUBLISH]) htot,
    publishDecode_of_encoded m hvt htl hpid hq0 hmt hfl hvq htot,
    hq0⟩

/-- Witness for C6: a QoS-1 publish with packet identifier 7. -/
theorem C6_publish_pid_witness :
    ∃ n : Nat,
      publishEncode c6msg [] =
        (some (n, { c6msg with header := { c6msg.header with remlen := publishTotal c6msg } }),
         headerByte { c6msg.header with remlen := publishTotal c6msg } ::
           (writeVarintLoop (publishTotal c6msg) ++ (lpBytes c6msg.topic ++
             ((if pubQoS c6msg.header ≠ 0 then writeUint16 c6msg.packetId else []) ++
               c6msg.payload)))) ∧
      publishDecode (headerByte { c6msg.header with remlen := publishTotal c6msg } ::
           (writeVarintLoop (publishTotal c6msg) ++ (lpBytes c6msg.topic ++
             ((if pubQoS c6msg.header ≠ 0 then writeUint16 c6msg.packetId else []) ++
               c6msg.payload)))) =
        .ok ({ c6msg with header := { c6msg.header with remlen := publishTotal c6msg } }, n) ∧
      (pubQoS c6msg.header = 0 → c6msg.packetId = 0) :=
  C6_publish_pid c6msg (by unfold PublishValid FixedHeaderValidFor; decide)

/-! ## Claim C8: failed Encode and the message buffer -/

theorem setRemainingLength_small (h : FixedHeader) (n : Int)
    (h1 : 0 ≤ n) (h2 : n ≤ (maxRemainingLength : Int)) :
    setRemainingLength h n = some { h with remlen := n.toNat } := by
  rw [setRemainingLength, if_neg (by push_neg; exact ⟨h2, h1⟩)]

/-- C8 counterexample: Connack encode with return code 6 fails, but only
after the fixed header bytes `[32, 2]` have been written to the previously
empty buffer — the buffer state is not unchanged. -/
theorem C8_counterexample :
    connackEncode { header := { mtype := 2, flags := 0, remlen := 0 },
                    sessionPresent := false, returnCode := 6 } [] =
      (none, [32, 2]) ∧ ([32, 2] : List Nat) ≠ [] := by
  exact ⟨by decide, by decide⟩

/-- C8 (amended): an empty Publish topic, an empty Publish payload and an
unregistered Connect protocol version each make Encode fail with the buffer
unchanged; a Connack return code above 5 makes Encode fail only after the
fixed header (type/flags byte and remaining-length varint) has replaced the
buffer contents. -/
theorem C8_encode_failures :
    (∀ (m : PublishMessage) (buf : List Nat), m.topic.length = 0 →
      publishEncode m buf = (none, buf)) ∧
    (∀ (m : PublishMessage) (buf : List Nat), m.payload.length = 0 →
      publishEncode m buf = (none, buf)) ∧
    (∀ (m : ConnectMessage) (buf : List Nat),
      supportedVersionName m.version = none →
      connectEncode m buf = (none, buf)) ∧
    (∀ (m : ConnackMessage) (buf : List Nat), 5 < m.returnCode →
      0 < m.header.mtype → m.header.mtype < 15 →
      connackEncode m buf =
        (none, headerByte { m.header with remlen := 2 } :: writeVarintLoop 2)) := by
  refine ⟨?_, ?_, ?_, ?_⟩
  · intro m buf h
    simp [publishEncode, h]
  · intro m buf h
    by_cases ht : m.topic.length = 0 <;> simp [publishEncode, ht, h]
  · intro m buf h
    by_cases hm : m.header.mtype = CONNECT
    · simp [connectEncode, hm, h]
    · simp [connectEncode, hm]
  · intro m buf h ht1 ht2
    have hset : setRemainingLength m.header 2 = some { m.header with remlen := 2 } := by
      rw [setRemainingLength, if_neg (by norm_num [maxRemainingLength])]
      rfl
    simp only [connackEncode, hset]
    simp only [fixedHeaderEncode_valid { m.header with remlen := 2 } buf
      (by simpa using ht1) (by simpa using ht2)
      (by simp [maxRemainingLength])]
    rw [if_pos h]

/-- Witness for C8: the Connack clause at return code 7 over a nonempty
buffer, and the Publish empty-topic clause. -/
theorem C8_encode_failures_witness :
    connackEncode { header := { mtype := 2, flags := 0, remlen := 5 },
                    sessionPresent := true, returnCode := 7 } [9] =
      (none, headerByte { ({ mtype := 2, flags := 0, remlen := 5 } : FixedHeader) with
          remlen := 2 } :: writeVarintLoop 2) ∧
    publishEncode { header := { mtype := 3, flags := 0, remlen := 0 },
                    packetId := 0, topic := [], payload := [1] } [7] =
      (none, [7]) :=
  ⟨C8_encode_failures.2.2.2
      { header := { mtype := 2, flags := 0, remlen := 5 },
        sessionPresent := true, returnCode := 7 } [9]
      (by norm_num) (by norm_num) (by norm_num),
   C8_encode_failures.1
      { header := { mtype := 3, flags := 0, remlen := 0 },
        packetId := 0, topic := [], payload := [1] } [7] (by norm_num)⟩

/-! ## Round-trip lemmas for the fixed-size message bodies -/

theorem setRemainingLength_two (h : FixedHeader) :
    setRemainingLength h 2 = some { h with remlen := 2 } := by
  rw [setRemainingLength, if_neg (by norm_num [maxRemainingLength])]
  rfl

theorem setRemainingLength_zero (h : FixedHeader) :
    setRemainingLength h 0 = some { h with remlen := 0 } := by
  rw [setRemainingLength, if_neg (by norm_num [maxRemainingLength])]
  rfl

theorem ackEncode_eq (m : AckMessage)
    (ht1 : 0 < m.header.mtype) (ht2 : m.header.mtype < 15) :
    ackEncode m [] =
      (some (1 + (writeVarintLoop 2).length + 2,
        { m with header := { m.header with remlen := 2 } }),
       headerByte { m.header with remlen := 2 } ::
         (writeVarintLoop 2 ++ writeUint16 m.packetId)) := by
  simp only [ackEncode, setRemainingLength_two]
  simp only [fixedHeaderEncode_valid { m.header with remlen := 2 } []
    (by simpa using ht1) (by simpa using ht2) (by simp [maxRemainingLength])]
  simp [List.append_assoc]

theorem ackDecode_of_encoded (m : AckMessage)
    (ht1 : 0 < m.header.mtype) (ht2 : m.header.mtype < 15)
    (hf : m.header.flags < 16) (hpid : m.packetId < 65536)
    (hfl : m.header.mtype ≠ 3 → m.header.flags = defaultFlags m.header.mtype)
    (hq : m.header.mtype = 3 → ValidQos (m.header.flags / 2 % 4) = true) :
    ackDecode m.header.mtype
        (headerByte { m.header with remlen := 2 } ::
          (writeVarintLoop 2 ++ writeUint16 m.packetId)) =
      .ok ({ m with header := { m.header with remlen := 2 } },
        1 + (writeVarintLoop 2).length + 2) := by
  have hbyte : headerByte { m.header with remlen := 2 } =
      m.header.mtype * 16 + m.header.flags := by
    rw [headerByte_eq _ (by simpa using (by omega : m.header.mtype < 16))
      (by simpa using hf)]
  have hhd := fixedHeaderDecode_encoded m.header.mtype m.header.flags 2
    (writeUint16 m.packetId) [] ht1 ht2 hf hfl hq
    (by norm_num [maxRemainingLength]) (by simp [writeUint16])
  simp only [List.append_nil] at hhd
  rw [hbyte]
  have hru : readUint16 (writeUint16 m.packetId) = .ok (m.packetId, []) := by
    simpa using readUint16_write m.packetId hpid []
  simp only [ackDecode, hhd, hru]

theorem headerOnlyEncode_eq (m : HeaderOnlyMessage)
    (ht1 : 0 < m.header.mtype) (ht2 : m.header.mtype < 15) :
    headerOnlyEncode m [] =
      (some (1 + (writeVarintLoop 0).length,
        { header := { m.header with remlen := 0 } }),
       headerByte { m.header with remlen := 0 } :: writeVarintLoop 0) := by
  simp only [headerOnlyEncode, setRemainingLength_zero,
    fixedHeaderEncode_valid { m.header with remlen := 0 } []
      (by simpa using ht1) (by simpa using ht2) (by simp [maxRemainingLength])]

theorem headerOnlyDecode_of_encoded (m : HeaderOnlyMessage)
    (ht1 : 0 < m.header.mtype) (ht2 : m.header.mtype < 15)
    (hf : m.header.flags < 16)
    (hfl : m.header.mtype ≠ 3 → m.header.flags = defaultFlags m.header.mtype)
    (hq : m.header.mtype = 3 → ValidQos (m.header.flags / 2 % 4) = true) :
    headerOnlyDecode m.header.mtype
        (headerByte { m.header with remlen := 0 } :: writeVarintLoop 0) =
      .ok ({ header := { m.header with remlen := 0 } },
        1 + (writeVarintLoop 0).length) := by
  have hbyte : headerByte { m.header with remlen := 0 } =
      m.header.mtype * 16 + m.header.flags := by
    rw [headerByte_eq _ (by simpa using (by omega : m.header.mtype < 16))
      (by simpa using hf)]
  have hhd := fixedHeaderDecode_encoded m.header.mtype m.header.flags 0
    [] [] ht1 ht2 hf hfl hq (by norm_num [maxRemainingLength]) (by simp)
  simp only [List.append_nil] at hhd
  rw [hbyte]
  simp only [headerOnlyDecode, hhd]

theorem connackEncode_eq (m : ConnackMessage) (hrc : m.returnCode ≤ 5)
    (ht1 : 0 < m.header.mtype) (ht2 : m.header.mtype < 15) :
    connackEncode m [] =
      (some (1 + (writeVarintLoop 2).length + 2,
        { m with header := { m.header with remlen := 2 } }),
       headerByte { m.header with remlen := 2 } ::
         (writeVarintLoop 2 ++
           [if m.sessionPresent then 1 else 0, m.returnCode])) := by
  simp only [connackEncode, setRemainingLength_two]
  simp only [fixedHeaderEncode_valid { m.header with remlen := 2 } []
    (by simpa using ht1) (by simpa using ht2) (by simp [maxRemainingLength])]
  rw [if_neg (by omega)]
  simp [List.append_assoc]

theorem connackDecode_of_encoded (m : ConnackMessage) (hrc : m.returnCode ≤ 5)
    (hmt : m.header.mtype = 2) (hfl : m.header.flags = 0) :
    connackDecode
        (headerByte { m.header with remlen := 2 } ::
          (writeVarintLoop 2 ++
            [if m.sessionPresent then 1 else 0, m.returnCode])) =
      .ok ({ m with header := { m.header with remlen := 2 } },
        1 + (writeVarintLoop 2).length + 2) := by
  have hhdr : ({ m.header with remlen := 2 } : FixedHeader) =
      { mtype := 2, flags := 0, remlen := 2 } := by
    rw [show ({ m.header with remlen := 2 } : FixedHeader) =
      { mtype := m.header.mtype, flags := m.header.flags, remlen := 2 } from rfl,
      hmt, hfl]
  rw [hhdr]
  have hhd := fixedHeaderDecode_encoded 2 0 2
    [if m.sessionPresent then 1 else 0, m.returnCode] []
    (by norm_num) (by norm_num) (by norm_num) (fun _ => rfl)
    (by intro h; exact absurd h (by norm_num))
    (by norm_num [maxRemainingLength]) (by simp)
  simp only [List.append_nil] at hhd
  rw [show headerByte { mtype := 2, flags := 0, remlen := 2 } = 2 * 16 + 0 from by decide]
  simp only [connackDecode, CONNACK, hhd]
  have h5 : ¬ m.returnCode > 5 := by omega
  have hl1 : Nat.land 1 254 = 0 := by decide
  have hl0 : Nat.land 0 254 = 0 := by decide
  cases hs : m.sessionPresent <;> simp [hs, h5, hl1, hl0]

theorem subackEncode_eq (m : SubackMessage)
    (hcodes : m.returnCodes.all validSubackCode = true)
    (ht1 : 0 < m.header.mtype) (ht2 : m.header.mtype < 15)
    (htot : 2 + m.returnCodes.length ≤ maxRemainingLength) :
    subackEncode m [] =
      (some (1 + (writeVarintLoop (2 + m.returnCodes.length)).length + 2
          + m.returnCodes.length,
        { m with header := { m.header with remlen := 2 + m.returnCodes.length } }),
       headerByte { m.header with remlen := 2 + m.returnCodes.length } ::
         (writeVarintLoop (2 + m.returnCodes.length) ++
           (writeUint16 m.packetId ++ m.returnCodes))) := by
  simp only [subackEncode, hcodes]
  rw [if_neg (by simp)]
  simp only [setRemainingLength_toInt32_some m.header (2 + m.returnCodes.length) htot]
  simp only [fixedHeaderEncode_valid { m.header with remlen := 2 + m.returnCodes.length }
    [] (by simpa using ht1) (by simpa using ht2) (by simpa using htot)]
  simp [List.append_assoc]

theorem subackDecode_of_encoded (m : SubackMessage)
    (hcodes : m.returnCodes.all validSubackCode = true)
    (hpid : m.packetId < 65536)
    (hmt : m.header.mtype = 9) (hfl : m.header.flags = 0)
    (htot : 2 + m.returnCodes.length ≤ maxRemainingLength) :
    subackDecode
        (headerByte { m.header with remlen := 2 + m.returnCodes.length } ::
          (writeVarintLoop (2 + m.returnCodes.length) ++
            (writeUint16 m.packetId ++ m.returnCodes))) =
      .ok ({ m with header := { m.header with remlen := 2 + m.returnCodes.length } },
        1 + (writeVarintLoop (2 + m.returnCodes.length)).length + 2
          + m.returnCodes.length) := by
  have hhdr : ({ m.header with remlen := 2 + m.returnCodes.length } : FixedHeader) =
      { mtype := 9, flags := 0, remlen := 2 + m.returnCodes.length } := by
    rw [show ({ m.header with remlen := 2 + m.returnCodes.length } : FixedHeader) =
      { mtype := m.header.mtype, flags := m.header.flags,
        remlen := 2 + m.returnCodes.length } from rfl, hmt, hfl]
  rw [hhdr]
  have hhd := fixedHeaderDecode_encoded 9 0 (2 + m.returnCodes.length)
    (writeUint16 m.packetId ++ m.returnCodes) []
    (by norm_num) (by norm_num) (by norm_num) (fun _ => rfl)
    (by intro h; exact absurd h (by norm_num)) htot
    (by simp [writeUint16]; omega)
  simp only [List.append_nil] at hhd
  have hb9 : headerByte ({ mtype := 9, flags := 0, remlen := 2 + m.returnCodes.length } : FixedHeader) = 9 * 16 + 0 := by
    rw [headerByte_eq _ (by norm_num) (by norm_num)]
  rw [hb9]
  simp only [subackDecode, SUBACK, hhd]
  rw [readUint16_write m.packetId hpid m.returnCodes]
  simp [hcodes]

/-! ## Subscribe and unsubscribe round-trip lemmas -/

theorem pairsBytes_length (ts : List (List Nat)) (qs : List Nat)
    (hlen : ts.length = qs.length) :
    (pairsBytes ts qs).length = (ts.map (fun t => 2 + t.length + 1)).sum := by
  induction ts generalizing qs with
  | nil =>
    cases qs with
    | nil => simp [pairsBytes]
    | cons q qs => simp at hlen
  | cons t ts ih =>
    cases qs with
    | nil => simp at hlen
    | cons q qs =>
      simp only [pairsBytes, lpBytes, writeUint16, List.map_cons, List.sum_cons,
        List.length_append, List.length_cons, List.length_nil,
        ih qs (by simpa using hlen)]
      omega

theorem topicsBytes_length (ts : List (List Nat)) :
    (topicsBytes ts).length = (ts.map (fun t => 2 + t.length)).sum := by
  induction ts with
  | nil => simp [topicsBytes]
  | cons t ts ih =>
    simp only [topicsBytes, lpBytes, writeUint16, List.map_cons, List.sum_cons,
      List.length_append, List.length_cons, List.length_nil, ih]

theorem writeTopicsBuf_eq (ts : List (List Nat))
    (hts : ∀ t ∈ ts, t.length ≤ maxLPString) (buf : List Nat) (acc : Nat) :
    writeTopicsBuf ts buf acc =
      (some (acc + (ts.map (fun t => 2 + t.length)).sum),
       buf ++ topicsBytes ts) := by
  induction ts generalizing buf acc with
  | nil => simp [writeTopicsBuf, topicsBytes]
  | cons t ts ih =>
    simp only [writeTopicsBuf, writeLPBytes_some t (hts t (by simp))]
    rw [ih (fun x hx => hts x (by simp [hx]))]
    simp only [topicsBytes, lpBytes, List.map_cons, List.sum_cons,
      List.append_assoc, List.length_append, writeUint16, List.length_cons,
      List.length_nil, Prod.mk.injEq, Option.some.injEq]
    constructor
    · omega
    · trivial

theorem readTopics_topicsBytes (ts : List (List Nat))
    (hts : ∀ t ∈ ts, t.length ≤ maxLPString) :
    readTopics (topicsBytes ts) =
      .ok (ts, (ts.map (fun t => 2 + t.length)).sum) := by
  induction ts with
  | nil => rw [readTopics]; simp [topicsBytes]
  | cons t ts ih =>
    have hread : readLPBytes (topicsBytes (t :: ts)) =
        .ok (t, 2 + t.length, topicsBytes ts) := by
      have : topicsBytes (t :: ts) =
          writeUint16 t.length ++ t ++ topicsBytes ts := by
        simp [topicsBytes, lpBytes, List.append_assoc]
      rw [this, readLPBytes_write _ _ (hts t (by simp))]
    rw [readTopics]
    rw [dif_neg (by simp [topicsBytes, lpBytes, writeUint16])]
    split
    · rename_i e heq
      rw [hread] at heq
      cases heq
    · rename_i t2 n2 rest2 heq
      rw [hread] at heq
      injection heq with heq
      injection heq with h1 heq
      injection heq with h2 h3
      subst h1
      subst h2
      subst h3
      rw [ih (fun x hx => hts x (by simp [hx]))]
      simp

theorem subscribeEncode_eq (m : SubscribeMessage)
    (hlen : m.topics.length = m.qos.length)
    (hts : ∀ t ∈ m.topics, t.length ≤ maxLPString)
    (ht1 : 0 < m.header.mtype) (ht2 : m.header.mtype < 15)
    (htot : subscribeBodyLen m ≤ maxRemainingLength) :
    subscribeEncode m [] =
      (some (1 + (writeVarintLoop (subscribeBodyLen m)).length + 2
          + (m.topics.map (fun t => 2 + t.length + 1)).sum,
        { m with header := { m.header with remlen := subscribeBodyLen m } }),
       headerByte { m.header with remlen := subscribeBodyLen m } ::
         (writeVarintLoop (subscribeBodyLen m) ++
           (writeUint16 m.packetId ++ pairsBytes m.topics m.qos))) := by
  have hset := setRemainingLength_toInt32_some m.header (subscribeBodyLen m) htot
  simp only [subscribeEncode, hset]
  simp only [fixedHeaderEncode_valid { m.header with remlen := subscribeBodyLen m }
    [] (by simpa using ht1) (by simpa using ht2) (by simpa using htot)]
  rw [writePairsBuf_eq m.topics m.qos hlen hts]
  simp [List.append_assoc]

theorem subscribeDecode_of_encoded (m : SubscribeMessage)
    (hlen : m.topics.length = m.qos.length)
    (hts : ∀ t ∈ m.topics, t.length ≤ maxLPString)
    (hne : m.topics.length ≠ 0) (hpid : m.packetId < 65536)
    (hmt : m.header.mtype = 8) (hfl : m.header.flags = 2)
    (htot : subscribeBodyLen m ≤ maxRemainingLength) :
    subscribeDecode
        (headerByte { m.header with remlen := subscribeBodyLen m } ::
          (writeVarintLoop (subscribeBodyLen m) ++
            (writeUint16 m.packetId ++ pairsBytes m.topics m.qos))) =
      .ok ({ m with header := { m.header with remlen := subscribeBodyLen m } },
        1 + (writeVarintLoop (subscribeBodyLen m)).length + 2
          + (m.topics.map (fun t => 2 + t.length + 1)).sum) := by
  have hhdr : ({ m.header with remlen := subscribeBodyLen m } : FixedHeader) =
      { mtype := 8, flags := 2, remlen := subscribeBodyLen m } := by
    rw [show ({ m.header with remlen := subscribeBodyLen m } : FixedHeader) =
      { mtype := m.header.mtype, flags := m.header.flags,
        remlen := subscribeBodyLen m } from rfl, hmt, hfl]
  rw [hhdr]
  have hhd := fixedHeaderDecode_encoded 8 2 (subscribeBodyLen m)
    (writeUint16 m.packetId ++ pairsBytes m.topics m.qos) []
    (by norm_num) (by norm_num) (by norm_num) (fun _ => by decide)
    (by intro h; exact absurd h (by norm_num)) htot
    (by simp [writeUint16, pairsBytes_length m.topics m.qos hlen, subscribeBodyLen]
        omega)
  simp only [List.append_nil] at hhd
  have hb8 : headerByte ({ mtype := 8, flags := 2, remlen := subscribeBodyLen m } : FixedHeader) = 8 * 16 + 2 := by
    rw [headerByte_eq _ (by norm_num) (by norm_num)]
  rw [hb8]
  have hru : readUint16 (writeUint16 m.packetId ++ pairsBytes m.topics m.qos) =
      .ok (m.packetId, pairsBytes m.topics m.qos) :=
    readUint16_write m.packetId hpid (pairsBytes m.topics m.qos)
  simp only [subscribeDecode, SUBSCRIBE, hhd, hru,
    readTopicsQos_pairs m.topics m.qos hlen hts]
  rw [if_neg hne]

theorem unsubscribeEncode_eq (m : UnsubscribeMessage)
    (hts : ∀ t ∈ m.topics, t.length ≤ maxLPString)
    (ht1 : 0 < m.header.mtype) (ht2 : m.header.mtype < 15)
    (htot : unsubscribeBodyLen m ≤ maxRemainingLength) :
    unsubscribeEncode m [] =
      (some (1 + (writeVarintLoop (unsubscribeBodyLen m)).length + 2
          + (m.topics.map (fun t => 2 + t.length)).sum,
        { m with header := { m.header with remlen := unsubscribeBodyLen m } }),
       headerByte { m.header with remlen := unsubscribeBodyLen m } ::
         (writeVarintLoop (unsubscribeBodyLen m) ++
           (writeUint16 m.packetId ++ topicsBytes m.topics))) := by
  have hset := setRemainingLength_toInt32_some m.header (unsubscribeBodyLen m) htot
  simp only [unsubscribeEncode, hset]
  simp only [fixedHeaderEncode_valid { m.header with remlen := unsubscribeBodyLen m }
    [] (by simpa using ht1) (by simpa using ht2) (by simpa using htot)]
  rw [writeTopicsBuf_eq m.topics hts]
  simp [List.append_assoc]

theorem unsubscribeDecode_of_encoded (m : UnsubscribeMessage)
    (hts : ∀ t ∈ m.topics, t.length ≤ maxLPString)
    (hne : m.topics.length ≠ 0) (hpid : m.packetId < 65536)
    (hmt : m.header.mtype = 10) (hfl : m.header.flags = 2)
    (htot : unsubscribeBodyLen m ≤ maxRemainingLength) :
    unsubscribeDecode
        (headerByte { m.header with remlen := unsubscribeBodyLen m } ::
          (writeVarintLoop (unsubscribeBodyLen m) ++
            (writeUint16 m.packetId ++ topicsBytes m.topics))) =
      .ok ({ m with header := { m.header with remlen := unsubscribeBodyLen m } },
        1 + (writeVarintLoop (unsubscribeBodyLen m)).length + 2
          + (m.topics.map (fun t => 2 + t.length)).sum) := by
  have hhdr : ({ m.header with remlen := unsubscribeBodyLen m } : FixedHeader) =
      { mtype := 10, flags := 2, remlen := unsubscribeBodyLen m } := by
    rw [show ({ m.header with remlen := unsubscribeBodyLen m } : FixedHeader) =
      { mtype := m.header.mtype, flags := m.header.flags,
        remlen := unsubscribeBodyLen m } from rfl, hmt, hfl]
  rw [hhdr]
  have hhd := fixedHeaderDecode_encoded 10 2 (unsubscribeBodyLen m)
    (writeUint16 m.packetId ++ topicsBytes m.topics) []
    (by norm_num) (by norm_num) (by norm_num) (fun _ => by decide)
    (by intro h; exact absurd h (by norm_num)) htot
    (by simp [writeUint16, topicsBytes_length m.topics, unsubscribeBodyLen]
        omega)
  simp only [List.append_nil] at hhd
  have hb10 : headerByte ({ mtype := 10, flags := 2, remlen := unsubscribeBodyLen m } : FixedHeader) = 10 * 16 + 2 := by
    rw [headerByte_eq _ (by norm_num) (by norm_num)]
  rw [hb10]
  have hru : readUint16 (writeUint16 m.packetId ++ topicsBytes m.topics) =
      .ok (m.packetId, topicsBytes m.topics) :=
    readUint16_write m.packetId hpid (topicsBytes m.topics)
  simp only [unsubscribeDecode, UNSUBSCRIBE, hhd, hru,
    readTopics_topicsBytes m.topics hts]
  rw [if_neg hne]

/-! ## Connect round-trip lemmas -/

theorem supportedVersionName_length (v : Nat) (vs : List Nat)
    (h : supportedVersionName v = some vs) : vs.length ≤ maxLPString := by
  unfold supportedVersionName at h
  split at h
  · injection h with h
    subst h
    decide
  · split at h
    · injection h with h
      subst h
      decide
    · cases h

theorem readLPBytes_lp (b : List Nat) (hb : b.length ≤ maxLPString)
    (rest : List Nat) :
    readLPBytes (lpBytes b ++ rest) = .ok (b, 2 + b.length, rest) :=
  readLPBytes_write b rest hb

theorem lpBytes_ne_nil (b : List Nat) (rest : List Nat) :
    lpBytes b ++ rest ≠ [] := by
  simp [lpBytes, writeUint16]

theorem connectEncodeAuth_eq (m : ConnectMessage) (buf : List Nat) (acc : Nat)
    (hul : m.username.length ≤ maxLPString)
    (hpl : m.password.length ≤ maxLPString) :
    connectEncodeAuth m buf acc =
      (some (acc
          + (if usernameFlagB m.connectFlags ∧ 0 < m.username.length then
              2 + m.username.length else 0)
          + (if passwordFlagB m.connectFlags ∧ 0 < m.password.length then
              2 + m.password.length else 0)),
       buf ++ ((if usernameFlagB m.connectFlags ∧ 0 < m.username.length then
                 lpBytes m.username else []) ++
               (if passwordFlagB m.connectFlags ∧ 0 < m.password.length then
                 lpBytes m.password else []))) := by
  simp only [connectEncodeAuth, writeLPBytes_some m.username hul,
    writeLPBytes_some m.password hpl]
  split_ifs with hcu hcp hcp
  all_goals simp [Option.map, lpBytes, writeUint16, List.append_assoc]
  all_goals omega

theorem connectEncodeMessage_eq (m : ConnectMessage) (buf : List Nat)
    (hpn : supportedVersionName m.version = some m.protoName)
    (hcl : m.clientId.length ≤ maxLPString)
    (hwt : m.willTopic.length ≤ maxLPString)
    (hwm : m.willMessage.length ≤ maxLPString)
    (hul : m.username.length ≤ maxLPString)
    (hpl : m.password.length ≤ maxLPString) :
    connectEncodeMessage m buf =
      (some (connectBodyLen m), buf ++ connectBodyBytes m) := by
  have hpnl : m.protoName.length ≤ maxLPString :=
    supportedVersionName_length _ _ hpn
  simp only [connectEncodeMessage, hpn, writeLPBytes_some m.protoName hpnl,
    writeLPBytes_some m.clientId hcl]
  by_cases hw : willFlagB m.connectFlags
  · simp only [if_pos hw, writeLPBytes_some m.willTopic hwt,
      writeLPBytes_some m.willMessage hwm,
      connectEncodeAuth_eq m _ _ hul hpl]
    simp only [Prod.mk.injEq, Option.some.injEq]
    constructor
    · simp only [connectBodyLen, hpn, if_pos hw, writeUint16,
        List.length_append, List.length_cons, List.length_nil]
      split_ifs <;> ring
    · simp [connectBodyBytes, if_pos hw, lpBytes, writeUint16,
        List.append_assoc]
  · simp only [if_neg hw, connectEncodeAuth_eq m _ _ hul hpl]
    simp only [Prod.mk.injEq, Option.some.injEq]
    constructor
    · simp only [connectBodyLen, hpn, if_neg hw, writeUint16,
        List.length_append, List.length_cons, List.length_nil]
      split_ifs <;> ring
    · simp [connectBodyBytes, if_neg hw, lpBytes, writeUint16,
        List.append_assoc]

theorem connectEncode_eq (m : ConnectMessage)
    (hmt : m.header.mtype = 1)
    (hpn : supportedVersionName m.version = some m.protoName)
    (hcl : m.clientId.length ≤ maxLPString)
    (hwt : m.willTopic.length ≤ maxLPString)
    (hwm : m.willMessage.length ≤ maxLPString)
    (hul : m.username.length ≤ maxLPString)
    (hpl : m.password.length ≤ maxLPString)
    (htot : connectBodyLen m ≤ maxRemainingLength) :
    connectEncode m [] =
      (some (1 + (writeVarintLoop (connectBodyLen m)).length + connectBodyLen m,
        { m with header := { m.header with remlen := connectBodyLen m } }),
       headerByte { m.header with remlen := connectBodyLen m } ::
         (writeVarintLoop (connectBodyLen m) ++ connectBodyBytes m)) := by
  have hset := setRemainingLength_toInt32_some m.header (connectBodyLen m) htot
  simp only [connectEncode, CONNECT]
  rw [if_neg (by simp [hmt])]
  simp only [hpn, hset]
  simp only [fixedHeaderEncode_valid { m.header with remlen := connectBodyLen m }
    [] (by simpa [hmt]) (by simpa [hmt]) (by simpa using htot)]
  rw [connectEncodeMessage_eq
    { m with header := { m.header with remlen := connectBodyLen m } } _
    hpn hcl hwt hwm hul hpl]
  have hbl : connectBodyLen
      { m with header := { m.header with remlen := connectBodyLen m } } =
      connectBodyLen m := rfl
  have hbb : connectBodyBytes
      { m with header := { m.header with remlen := connectBodyLen m } } =
      connectBodyBytes m := rfl
  rw [hbl, hbb]
  simp [List.append_assoc]

theorem connectDecodeAuth_encoded (h : FixedHeader) (pn : List Nat)
    (version cf ka : Nat) (cid wt wm : List Nat) (acc : Nat) (u pw : List Nat)
    (hul : u.length ≤ maxLPString) (hpl : pw.length ≤ maxLPString)
    (hu0 : usernameFlagB cf = false → u = [])
    (hp0 : passwordFlagB cf = false → pw = [])
    (hup : usernameFlagB cf = true → u = [] → pw = []) :
    connectDecodeAuth h pn version cf ka cid wt wm acc
        ((if usernameFlagB cf ∧ 0 < u.length then lpBytes u else []) ++
          (if passwordFlagB cf ∧ 0 < pw.length then lpBytes pw else [])) =
      .ok ({ header := h, connectFlags := cf, version := version,
             keepAlive := ka, protoName := pn, clientId := cid,
             willTopic := wt, willMessage := wm, username := u,
             password := pw },
        acc + (if usernameFlagB cf ∧ 0 < u.length then 2 + u.length else 0)
            + (if passwordFlagB cf ∧ 0 < pw.length then 2 + pw.length else 0)) := by
  by_cases hcu : usernameFlagB cf = true ∧ 0 < u.length
  · simp only [if_pos hcu]
    by_cases hcp : passwordFlagB cf = true ∧ 0 < pw.length
    · simp only [if_pos hcp, connectDecodeAuth]
      simp only [if_pos (And.intro hcu.1 (lpBytes_ne_nil u (lpBytes pw)))]
      simp only [readLPBytes_lp u hul (lpBytes pw)]
      have e2 : readLPBytes (lpBytes pw) = .ok (pw, 2 + pw.length, []) := by
        simpa using readLPBytes_lp pw hpl []
      simp only [if_pos
        (And.intro hcp.1 (by simp [lpBytes, writeUint16] : lpBytes pw ≠ [])), e2]
      simp only [if_neg (by simp : ¬ (([] : List Nat) ≠ []))]
    · have hpw : pw = [] := by
        cases hb : passwordFlagB cf with
        | false => exact hp0 hb
        | true =>
          have hl : ¬ 0 < pw.length := fun hl => hcp ⟨hb, hl⟩
          exact List.eq_nil_of_length_eq_zero (by omega)
      subst hpw
      simp only [if_neg hcp, List.append_nil, connectDecodeAuth]
      simp only [if_pos
        (And.intro hcu.1 (by simp [lpBytes, writeUint16] : lpBytes u ≠ []))]
      have e1 : readLPBytes (lpBytes u) = .ok (u, 2 + u.length, []) := by
        simpa using readLPBytes_lp u hul []
      simp only [e1]
      simp only [if_neg
        (by simp : ¬ (passwordFlagB cf = true ∧ ([] : List Nat) ≠ []))]
      simp only [if_neg (by simp : ¬ (([] : List Nat) ≠ []))]
  · have hu' : u = [] := by
      cases hb : usernameFlagB cf with
      | false => exact hu0 hb
      | true =>
        have hl : ¬ 0 < u.length := fun hl => hcu ⟨hb, hl⟩
        exact List.eq_nil_of_length_eq_zero (by omega)
    subst hu'
    by_cases hcp : passwordFlagB cf = true ∧ 0 < pw.length
    · have huf : usernameFlagB cf = false := by
        cases hb : usernameFlagB cf with
        | false => rfl
        | true =>
          have := hup hb rfl
          rw [this] at hcp
          exact absurd hcp.2 (by simp)
      simp only [if_neg hcu, if_pos hcp, List.nil_append, connectDecodeAuth]
      simp only [if_neg
        (by simp [huf] : ¬ (usernameFlagB cf = true ∧ lpBytes pw ≠ []))]
      have e2 : readLPBytes (lpBytes pw) = .ok (pw, 2 + pw.length, []) := by
        simpa using readLPBytes_lp pw hpl []
      simp only [if_pos
        (And.intro hcp.1 (by simp [lpBytes, writeUint16] : lpBytes pw ≠ [])), e2]
      simp only [if_neg (by simp : ¬ (([] : List Nat) ≠ []))]
    · have hpw : pw = [] := by
        cases hb : passwordFlagB cf with
        | false => exact hp0 hb
        | true =>
          have hl : ¬ 0 < pw.length := fun hl => hcp ⟨hb, hl⟩
          exact List.eq_nil_of_length_eq_zero (by omega)
      subst hpw
      simp only [if_neg hcu, if_neg hcp, List.nil_append, connectDecodeAuth]
      simp only [if_neg
        (by simp : ¬ (usernameFlagB cf = true ∧ ([] : List Nat) ≠ []))]
      simp only [if_neg
        (by simp : ¬ (passwordFlagB cf = true ∧ ([] : List Nat) ≠ []))]
      simp only [if_neg (by simp : ¬ (([] : List Nat) ≠ []))]

theorem connectDecodeWill_encoded (h : FixedHeader) (pn : List Nat)
    (version cf ka : Nat) (cid : List Nat) (acc : Nat) (wt wm u pw : List Nat)
    (hwtl : wt.length ≤ maxLPString) (hwml : wm.length ≤ maxLPString)
    (hul : u.length ≤ maxLPString) (hpl : pw.length ≤ maxLPString)
    (hu0 : usernameFlagB cf = false → u = [])
    (hp0 : passwordFlagB cf = false → pw = [])
    (hup : usernameFlagB cf = true → u = [] → pw = [])
    (hw0 : willFlagB cf = false → wt = [] ∧ wm = []) :
    connectDecodeWill h pn version cf ka cid acc
        ((if willFlagB cf then lpBytes wt ++ lpBytes wm else []) ++
          ((if usernameFlagB cf ∧ 0 < u.length then lpBytes u else []) ++
            (if passwordFlagB cf ∧ 0 < pw.length then lpBytes pw else []))) =
      .ok ({ header := h, connectFlags := cf, version := version,
             keepAlive := ka, protoName := pn, clientId := cid,
             willTopic := wt, willMessage := wm, username := u,
             password := pw },
        acc + (if willFlagB cf then 2 + wt.length + 2 + wm.length else 0)
            + (if usernameFlagB cf ∧ 0 < u.length then 2 + u.length else 0)
            + (if passwordFlagB cf ∧ 0 < pw.length then 2 + pw.length else 0)) := by
  by_cases hw : willFlagB cf = true
  · simp only [if_pos hw, connectDecodeWill]
    rw [List.append_assoc]
    simp only [readLPBytes_lp wt hwtl]
    simp only [readLPBytes_lp wm hwml]
    rw [connectDecodeAuth_encoded h pn version cf ka cid wt wm _ u pw
      hul hpl hu0 hp0 hup]
    simp only [Except.ok.injEq, Prod.mk.injEq]
    exact ⟨trivial, by ring⟩
  · have hwf : willFlagB cf = false := by
      cases hb : willFlagB cf with
      | false => rfl
      | true => exact absurd hb hw
    obtain ⟨hwt0, hwm0⟩ := hw0 hwf
    subst hwt0
    subst hwm0
    simp only [if_neg hw, List.nil_append, connectDecodeWill]
    rw [connectDecodeAuth_encoded h pn version cf ka cid [] [] acc u pw
      hul hpl hu0 hp0 hup]
    simp only [Except.ok.injEq, Prod.mk.injEq]
    exact ⟨trivial, by ring⟩

theorem connectBodyBytes_length (m : ConnectMessage)
    (hpn : supportedVersionName m.version = some m.protoName) :
    (connectBodyBytes m).length = connectBodyLen m := by
  simp only [connectBodyBytes, connectBodyLen, hpn, lpBytes, writeUint16]
  split_ifs <;> simp <;> ring

theorem connectDecodeMessage_encoded (h : FixedHeader) (m : ConnectMessage)
    (hpn : supportedVersionName m.version = some m.protoName)
    (hcf2 : m.connectFlags % 2 = 0)
    (hwq : willQosOf m.connectFlags ≤ 2)
    (hwv : willFlagB m.connectFlags = false →
      willRetainB m.connectFlags = false ∧ willQosOf m.connectFlags = 0)
    (huf : usernameFlagB m.connectFlags = true →
      passwordFlagB m.connectFlags = true)
    (hu0 : usernameFlagB m.connectFlags = false → m.username = [])
    (hp0 : passwordFlagB m.connectFlags = false → m.password = [])
    (hup : usernameFlagB m.connectFlags = true → m.username = [] →
      m.password = [])
    (hw0 : willFlagB m.connectFlags = false →
      m.willTopic = [] ∧ m.willMessage = [])
    (hcid : m.clientId = [] → cleanSessionFlag m.connectFlags = true)
    (hvc : ValidClientId m.clientId = true)
    (hka : m.keepAlive < 65536)
    (hcl : m.clientId.length ≤ maxLPString)
    (hwt : m.willTopic.length ≤ maxLPString)
    (hwm : m.willMessage.length ≤ maxLPString)
    (hul : m.username.length ≤ maxLPString)
    (hpl : m.password.length ≤ maxLPString) :
    connectDecodeMessage h (connectBodyBytes m) =
      .ok ({ m with header := h }, connectBodyLen m) := by
  have hpnl : m.protoName.length ≤ maxLPString :=
    supportedVersionName_length _ _ hpn
  simp only [connectBodyBytes, connectDecodeMessage,
    readLPBytes_lp m.protoName hpnl, hpn]
  rw [if_neg (by simp)]
  rw [if_neg (by omega : ¬ m.connectFlags % 2 ≠ 0)]
  rw [if_neg (by omega : ¬ willQosOf m.connectFlags > 2)]
  rw [if_neg (by
    rintro ⟨hnw, hor⟩
    have hwf : willFlagB m.connectFlags = false := by
      cases hb : willFlagB m.connectFlags with
      | false => rfl
      | true => exact absurd hb hnw
    rcases hwv hwf with ⟨hr, hq⟩
    rcases hor with hor | hor
    · rw [hr] at hor
      exact Bool.noConfusion hor
    · exact hor hq)]
  rw [if_neg (by
    rintro ⟨hu', hnp⟩
    exact hnp (huf hu'))]
  simp only [readUint16_write m.keepAlive hka]
  simp only [readLPBytes_lp m.clientId hcl]
  rw [if_neg (by
    rintro ⟨h0, hcs⟩
    exact hcs (hcid (List.eq_nil_of_length_eq_zero h0)))]
  rw [if_neg (by
    rintro ⟨_, hnv⟩
    exact hnv hvc)]
  rw [connectDecodeWill_encoded h m.protoName m.version m.connectFlags
    m.keepAlive m.clientId _ m.willTopic m.willMessage m.username m.password
    hwt hwm hul hpl hu0 hp0 hup hw0]
  simp only [Except.ok.injEq, Prod.mk.injEq]
  refine ⟨trivial, ?_⟩
  simp only [connectBodyLen, hpn]

theorem connectDecode_of_encoded (m : ConnectMessage)
    (hmt : m.header.mtype = 1) (hfl : m.header.flags = 0)
    (hpn : supportedVersionName m.version = some m.protoName)
    (hcf2 : m.connectFlags % 2 = 0)
    (hwq : willQosOf m.connectFlags ≤ 2)
    (hwv : willFlagB m.connectFlags = false →
      willRetainB m.connectFlags = false ∧ willQosOf m.connectFlags = 0)
    (huf : usernameFlagB m.connectFlags = true →
      passwordFlagB m.connectFlags = true)
    (hu0 : usernameFlagB m.connectFlags = false → m.username = [])
    (hp0 : passwordFlagB m.connectFlags = false → m.password = [])
    (hup : usernameFlagB m.connectFlags = true → m.username = [] →
      m.password = [])
    (hw0 : willFlagB m.connectFlags = false →
      m.willTopic = [] ∧ m.willMessage = [])
    (hcid : m.clientId = [] → cleanSessionFlag m.connectFlags = true)
    (hvc : ValidClientId m.clientId = true)
    (hka : m.keepAlive < 65536)
    (hcl : m.clientId.length ≤ maxLPString)
    (hwt : m.willTopic.length ≤ maxLPString)
    (hwm : m.willMessage.length ≤ maxLPString)
    (hul : m.username.length ≤ maxLPString)
    (hpl : m.password.length ≤ maxLPString)
    (htot : connectBodyLen m ≤ maxRemainingLength) :
    connectDecode
        (headerByte { m.header with remlen := connectBodyLen m } ::
          (writeVarintLoop (connectBodyLen m) ++ connectBodyBytes m)) =
      .ok ({ m with header := { m.header with remlen := connectBodyLen m } },
        1 + (writeVarintLoop (connectBodyLen m)).length + connectBodyLen m) := by
  have hhdr : ({ m.header with remlen := connectBodyLen m } : FixedHeader) =
      { mtype := 1, flags := 0, remlen := connectBodyLen m } := by
    rw [show ({ m.header with remlen := connectBodyLen m } : FixedHeader) =
      { mtype := m.header.mtype, flags := m.header.flags,
        remlen := connectBodyLen m } from rfl, hmt, hfl]
  rw [hhdr]
  have hbl : (connectBodyBytes m).length = connectBodyLen m :=
    connectBodyBytes_length m hpn
  have hhd := fixedHeaderDecode_encoded 1 0 (connectBodyLen m)
    (connectBodyBytes m) []
    (by norm_num) (by norm_num) (by norm_num) (fun _ => rfl)
    (by intro h; exact absurd h (by norm_num)) htot hbl
  simp only [List.append_nil] at hhd
  have hb1 : headerByte ({ mtype := 1, flags := 0, remlen := connectBodyLen m } : FixedHeader) = 1 * 16 + 0 := by
    rw [headerByte_eq _ (by norm_num) (by norm_num)]
  rw [hb1]
  simp only [connectDecode, CONNECT, hhd]
  rw [connectDecodeMessage_encoded _ m hpn hcf2 hwq hwv huf hu0 hp0 hup hw0
    hcid hvc hka hcl hwt hwm hul hpl]

/-! ## Per-type round-trip lemmas for claim C1 -/

theorem roundTrips_puback (m : AckMessage) (hv : AckValid PUBACK m) :
    RoundTrips (.puback m) := by
  obtain ⟨⟨hmt, hf16, hfl', hq'⟩, hpid⟩ := hv
  have ht1 : 0 < m.header.mtype := by rw [hmt]; decide
  have ht2 : m.header.mtype < 15 := by rw [hmt]; decide
  have hfl : m.header.mtype ≠ 3 → m.header.flags = defaultFlags m.header.mtype := by
    intro _
    rw [hmt]
    exact hfl' (by decide)
  have hq : m.header.mtype = 3 → ValidQos (m.header.flags / 2 % 4) = true := by
    intro h3
    exact absurd (hmt.symm.trans h3) (by decide)
  refine ⟨1 + (writeVarintLoop 2).length + 2, 1 + (writeVarintLoop 2).length + 2,
    .puback { m with header := { m.header with remlen := 2 } },
    headerByte { m.header with remlen := 2 } ::
      (writeVarintLoop 2 ++ writeUint16 m.packetId), ?_, ?_, ?_⟩
  · show mapEncodeResult .puback (ackEncode m []) = _
    rw [ackEncode_eq m ht1 ht2]
    rfl
  · show (ackDecode PUBACK _).map _ = _
    rw [← hmt, ackDecode_of_encoded m ht1 ht2 hf16 hpid hfl hq]
    rfl
  · show mapEncodeResult .puback
      (ackEncode { m with header := { m.header with remlen := 2 } } []) = _
    rw [ackEncode_eq { m with header := { m.header with remlen := 2 } } ht1 ht2]
    rfl


theorem roundTrips_pubrec (m : AckMessage) (hv : AckValid PUBREC m) :
    RoundTrips (.pubrec m) := by
  obtain ⟨⟨hmt, hf16, hfl', hq'⟩, hpid⟩ := hv
  have ht1 : 0 < m.header.mtype := by rw [hmt]; decide
  have ht2 : m.header.mtype < 15 := by rw [hmt]; decide
  have hfl : m.header.mtype ≠ 3 → m.header.flags = defaultFlags m.header.mtype := by
    intro _
    rw [hmt]
    exact hfl' (by decide)
  have hq : m.header.mtype = 3 → ValidQos (m.header.flags / 2 % 4) = true := by
    intro h3
    exact absurd (hmt.symm.trans h3) (by decide)
  refine ⟨1 + (writeVarintLoop 2).length + 2, 1 + (writeVarintLoop 2).length + 2,
    .pubrec { m with header := { m.header with remlen := 2 } },
    headerByte { m.header with remlen := 2 } ::
      (writeVarintLoop 2 ++ writeUint16 m.packetId), ?_, ?_, ?_⟩
  · show mapEncodeResult .pubrec (ackEncode m []) = _
    rw [ackEncode_eq m ht1 ht2]
    rfl
  · show (ackDecode PUBREC _).map _ = _
    rw [← hmt, ackDecode_of_encoded m ht1 ht2 hf16 hpid hfl hq]
    rfl
  · show mapEncodeResult .pubrec
      (ackEncode { m with header := { m.header with remlen := 2 } } []) = _
    rw [ackEncode_eq { m with header := { m.header with remlen := 2 } } ht1 ht2]
    rfl

theorem roundTrips_pubrel (m : AckMessage) (hv : AckValid PUBREL m) :
    RoundTrips (.pubrel m) := by
  obtain ⟨⟨hmt, hf16, hfl', hq'⟩, hpid⟩ := hv
  have ht1 : 0 < m.header.mtype := by rw [hmt]; decide
  have ht2 : m.header.mtype < 15 := by rw [hmt]; decide
  have hfl : m.header.mtype ≠ 3 → m.header.flags = defaultFlags m.header.mtype := by
    intro _
    rw [hmt]
    exact hfl' (by decide)
  have hq : m.header.mtype = 3 → ValidQos (m.header.flags / 2 % 4) = true := by
    intro h3
    exact absurd (hmt.symm.trans h3) (by decide)
  refine ⟨1 + (writeVarintLoop 2).length + 2, 1 + (writeVarintLoop 2).length + 2,
    .pubrel { m with header := { m.header with remlen := 2 } },
    headerByte { m.header with remlen := 2 } ::
      (writeVarintLoop 2 ++ writeUint16 m.packetId), ?_, ?_, ?_⟩
  · show mapEncodeResult .pubrel (ackEncode m []) = _
    rw [ackEncode_eq m ht1 ht2]
    rfl
  · show (ackDecode PUBREL _).map _ = _
    rw [← hmt, ackDecode_of_encoded m ht1 ht2 hf16 hpid hfl hq]
    rfl
  · show mapEncodeResult .pubrel
      (ackEncode { m with header := { m.header with remlen := 2 } } []) = _
    rw [ackEncode_eq { m with header := { m.header with remlen := 2 } } ht1 ht2]
    rfl

theorem roundTrips_pubcomp (m : AckMessage) (hv : AckValid PUBCOMP m) :
    RoundTrips (.pubcomp m) := by
  obtain ⟨⟨hmt, hf16, hfl', hq'⟩, hpid⟩ := hv
  have ht1 : 0 < m.header.mtype := by rw [hmt]; decide
  have ht2 : m.header.mtype < 15 := by rw [hmt]; decide
  have hfl : m.header.mtype ≠ 3 → m.header.flags = defaultFlags m.header.mtype := by
    intro _
    rw [hmt]
    exact hfl' (by decide)
  have hq : m.header.mtype = 3 → ValidQos (m.header.flags / 2 % 4) = true := by
    intro h3
    exact absurd (hmt.symm.trans h3) (by decide)
  refine ⟨1 + (writeVarintLoop 2).length + 2, 1 + (writeVarintLoop 2).length + 2,
    .pubcomp { m with header := { m.header with remlen := 2 } },
    headerByte { m.header with remlen := 2 } ::
      (writeVarintLoop 2 ++ writeUint16 m.packetId), ?_, ?_, ?_⟩
  · show mapEncodeResult .pubcomp (ackEncode m []) = _
    rw [ackEncode_eq m ht1 ht2]
    rfl
  · show (ackDecode PUBCOMP _).map _ = _
    rw [← hmt, ackDecode_of_encoded m ht1 ht2 hf16 hpid hfl hq]
    rfl
  · show mapEncodeResult .pubcomp
      (ackEncode { m with header := { m.header with remlen := 2 } } []) = _
    rw [ackEncode_eq { m with header := { m.header with remlen := 2 } } ht1 ht2]
    rfl

theorem roundTrips_unsuback (m : AckMessage) (hv : AckValid UNSUBACK m) :
    RoundTrips (.unsuback m) := by
  obtain ⟨⟨hmt, hf16, hfl', hq'⟩, hpid⟩ := hv
  have ht1 : 0 < m.header.mtype := by rw [hmt]; decide
  have ht2 : m.header.mtype < 15 := by rw [hmt]; decide
  have hfl : m.header.mtype ≠ 3 → m.header.flags = defaultFlags m.header.mtype := by
    intro _
    rw [hmt]
    exact hfl' (by decide)
  have hq : m.header.mtype = 3 → ValidQos (m.header.flags / 2 % 4) = true := by
    intro h3
    exact absurd (hmt.symm.trans h3) (by decide)
  refine ⟨1 + (writeVarintLoop 2).length + 2, 1 + (writeVarintLoop 2).length + 2,
    .unsuback { m with header := { m.header with remlen := 2 } },
    headerByte { m.header with remlen := 2 } ::
      (writeVarintLoop 2 ++ writeUint16 m.packetId), ?_, ?_, ?_⟩
  · show mapEncodeResult .unsuback (ackEncode m []) = _
    rw [ackEncode_eq m ht1 ht2]
    rfl
  · show (ackDecode UNSUBACK _).map _ = _
    rw [← hmt, ackDecode_of_encoded m ht1 ht2 hf16 hpid hfl hq]
    rfl
  · show mapEncodeResult .unsuback
      (ackEncode { m with header := { m.header with remlen := 2 } } []) = _
    rw [ackEncode_eq { m with header := { m.header with remlen := 2 } } ht1 ht2]
    rfl

theorem roundTrips_pingreq (m : HeaderOnlyMessage)
    (hv : FixedHeaderValidFor PINGREQ m.header) :
    RoundTrips (.pingreq m) := by
  obtain ⟨hmt, hf16, hfl', hq'⟩ := hv
  have ht1 : 0 < m.header.mtype := by rw [hmt]; decide
  have ht2 : m.header.mtype < 15 := by rw [hmt]; decide
  have hfl : m.header.mtype ≠ 3 → m.header.flags = defaultFlags m.header.mtype := by
    intro _
    rw [hmt]
    exact hfl' (by decide)
  have hq : m.header.mtype = 3 → ValidQos (m.header.flags / 2 % 4) = true := by
    intro h3
    exact absurd (hmt.symm.trans h3) (by decide)
  refine ⟨1 + (writeVarintLoop 0).length, 1 + (writeVarintLoop 0).length,
    .pingreq { header := { m.header with remlen := 0 } },
    headerByte { m.header with remlen := 0 } :: writeVarintLoop 0, ?_, ?_, ?_⟩
  · show mapEncodeResult .pingreq (headerOnlyEncode m []) = _
    rw [headerOnlyEncode_eq m ht1 ht2]
    rfl
  · show (headerOnlyDecode PINGREQ _).map _ = _
    rw [← hmt, headerOnlyDecode_of_encoded m ht1 ht2 hf16 hfl hq]
    rfl
  · show mapEncodeResult .pingreq
      (headerOnlyEncode { header := { m.header with remlen := 0 } } []) = _
    rw [headerOnlyEncode_eq { header := { m.header with remlen := 0 } } ht1 ht2]
    rfl

theorem roundTrips_pingresp (m : HeaderOnlyMessage)
    (hv : FixedHeaderValidFor PINGRESP m.header) :
    RoundTrips (.pingresp m) := by
  obtain ⟨hmt, hf16, hfl', hq'⟩ := hv
  have ht1 : 0 < m.header.mtype := by rw [hmt]; decide
  have ht2 : m.header.mtype < 15 := by rw [hmt]; decide
  have hfl : m.header.mtype ≠ 3 → m.header.flags = defaultFlags m.header.mtype := by
    intro _
    rw [hmt]
    exact hfl' (by decide)
  have hq : m.header.mtype = 3 → ValidQos (m.header.flags / 2 % 4) = true := by
    intro h3
    exact absurd (hmt.symm.trans h3) (by decide)
  refine ⟨1 + (writeVarintLoop 0).length, 1 + (writeVarintLoop 0).length,
    .pingresp { header := { m.header with remlen := 0 } },
    headerByte { m.header with remlen := 0 } :: writeVarintLoop 0, ?_, ?_, ?_⟩
  · show mapEncodeResult .pingresp (headerOnlyEncode m []) = _
    rw [headerOnlyEncode_eq m ht1 ht2]
    rfl
  · show (headerOnlyDecode PINGRESP _).map _ = _
    rw [← hmt, headerOnlyDecode_of_encoded m ht1 ht2 hf16 hfl hq]
    rfl
  · show mapEncodeResult .pingresp
      (headerOnlyEncode { header := { m.header with remlen := 0 } } []) = _
    rw [headerOnlyEncode_eq { header := { m.header with remlen := 0 } } ht1 ht2]
    rfl

theorem roundTrips_disconnect (m : HeaderOnlyMessage)
    (hv : FixedHeaderValidFor DISCONNECT m.header) :
    RoundTrips (.disconnect m) := by
  obtain ⟨hmt, hf16, hfl', hq'⟩ := hv
  have ht1 : 0 < m.header.mtype := by rw [hmt]; decide
  have ht2 : m.header.mtype < 15 := by rw [hmt]; decide
  have hfl : m.header.mtype ≠ 3 → m.header.flags = defaultFlags m.header.mtype := by
    intro _
    rw [hmt]
    exact hfl' (by decide)
  have hq : m.header.mtype = 3 → ValidQos (m.header.flags / 2 % 4) = true := by
    intro h3
    exact absurd (hmt.symm.trans h3) (by decide)
  refine ⟨1 + (writeVarintLoop 0).length, 1 + (writeVarintLoop 0).length,
    .disconnect { header := { m.header with remlen := 0 } },
    headerByte { m.header with remlen := 0 } :: writeVarintLoop 0, ?_, ?_, ?_⟩
  · show mapEncodeResult .disconnect (headerOnlyEncode m []) = _
    rw [headerOnlyEncode_eq m ht1 ht2]
    rfl
  · show (headerOnlyDecode DISCONNECT _).map _ = _
    rw [← hmt, headerOnlyDecode_of_encoded m ht1 ht2 hf16 hfl hq]
    rfl
  · show mapEncodeResult .disconnect
      (headerOnlyEncode { header := { m.header with remlen := 0 } } []) = _
    rw [headerOnlyEncode_eq { header := { m.header with remlen := 0 } } ht1 ht2]
    rfl

theorem roundTrips_connack (m : ConnackMessage) (hv : ConnackValid m) :
    RoundTrips (.connack m) := by
  obtain ⟨⟨hmt, hf16, hfl', hq'⟩, hrc⟩ := hv
  have ht1 : 0 < m.header.mtype := by rw [hmt]; decide
  have ht2 : m.header.mtype < 15 := by rw [hmt]; decide
  have hfl : m.header.flags = 0 := (hfl' (by decide)).trans (by decide)
  refine ⟨1 + (writeVarintLoop 2).length + 2, 1 + (writeVarintLoop 2).length + 2,
    .connack { m with header := { m.header with remlen := 2 } },
    headerByte { m.header with remlen := 2 } ::
      (writeVarintLoop 2 ++
        [if m.sessionPresent then 1 else 0, m.returnCode]), ?_, ?_, ?_⟩
  · show mapEncodeResult .connack (connackEncode m []) = _
    rw [connackEncode_eq m hrc ht1 ht2]
    rfl
  · show (connackDecode _).map _ = _
    rw [connackDecode_of_encoded m hrc hmt hfl]
    rfl
  · show mapEncodeResult .connack
      (connackEncode { m with header := { m.header with remlen := 2 } } []) = _
    rw [connackEncode_eq { m with header := { m.header with remlen := 2 } } hrc ht1 ht2]
    rfl

theorem roundTrips_suback (m : SubackMessage) (hv : SubackValid m) :
    RoundTrips (.suback m) := by
  obtain ⟨⟨hmt, hf16, hfl', hq'⟩, hpid, hcodes, htot⟩ := hv
  have ht1 : 0 < m.header.mtype := by rw [hmt]; decide
  have ht2 : m.header.mtype < 15 := by rw [hmt]; decide
  have hfl : m.header.flags = 0 := (hfl' (by decide)).trans (by decide)
  refine ⟨1 + (writeVarintLoop (2 + m.returnCodes.length)).length + 2
      + m.returnCodes.length,
    1 + (writeVarintLoop (2 + m.returnCodes.length)).length + 2
      + m.returnCodes.length,
    .suback { m with header := { m.header with remlen := 2 + m.returnCodes.length } },
    headerByte { m.header with remlen := 2 + m.returnCodes.length } ::
      (writeVarintLoop (2 + m.returnCodes.length) ++
        (writeUint16 m.packetId ++ m.returnCodes)), ?_, ?_, ?_⟩
  · show mapEncodeResult .suback (subackEncode m []) = _
    rw [subackEncode_eq m hcodes ht1 ht2 htot]
    rfl
  · show (subackDecode _).map _ = _
    rw [subackDecode_of_encoded m hcodes hpid hmt hfl htot]
    rfl
  · show mapEncodeResult .suback
      (subackEncode { m with header := { m.header with remlen := 2 + m.returnCodes.length } } []) = _
    rw [subackEncode_eq { m with header := { m.header with remlen := 2 + m.returnCodes.length } } hcodes ht1 ht2 htot]
    rfl

theorem roundTrips_publish (m : PublishMessage) (hv : PublishValid m) :
    RoundTrips (.publish m) := by
  obtain ⟨⟨hmt, hf16, hfl', hq'⟩, hvt, htl, hpne, hpid, hq0, htot⟩ := hv
  have ht1 : 0 < m.header.mtype := by rw [hmt]; decide
  have ht2 : m.header.mtype < 15 := by rw [hmt]; decide
  have hvq : ValidQos (m.header.flags / 2 % 4) = true := hq' rfl
  have htne : ¬ m.topic.length = 0 := by
    simp only [ValidTopic, Bool.and_eq_true, decide_eq_true_eq] at hvt
    omega
  have hpne' : ¬ m.payload.length = 0 :=
    fun h0 => hpne (List.eq_nil_of_length_eq_zero h0)
  refine ⟨1 + (writeVarintLoop (publishTotal m)).length + (2 + m.topic.length)
      + (if pubQoS m.header ≠ 0 then 2 else 0) + m.payload.length,
    1 + (writeVarintLoop (publishTotal m)).length + (2 + m.topic.length)
      + (if pubQoS m.header ≠ 0 then 2 else 0) + m.payload.length,
    .publish { m with header := { m.header with remlen := publishTotal m } },
    headerByte { m.header with remlen := publishTotal m } ::
      (writeVarintLoop (publishTotal m) ++ (lpBytes m.topic ++
        ((if pubQoS m.header ≠ 0 then writeUint16 m.packetId else []) ++
          m.payload))), ?_, ?_, ?_⟩
  · show mapEncodeResult .publish (publishEncode m []) = _
    rw [publishEncode_eq m htne hpne' htl ht1 ht2 htot]
    rfl
  · show (publishDecode _).map _ = _
    rw [publishDecode_of_encoded m hvt htl hpid hq0 hmt hf16 hvq htot]
    rfl
  · show mapEncodeResult .publish
      (publishEncode { m with header := { m.header with remlen := publishTotal m } } []) = _
    rw [publishEncode_eq { m with header := { m.header with remlen := publishTotal m } }
      htne hpne' htl ht1 ht2 htot]
    rfl

theorem roundTrips_subscribe (m : SubscribeMessage) (hv : SubscribeValid m) :
    RoundTrips (.subscribe m) := by
  obtain ⟨⟨hmt, hf16, hfl', hq'⟩, hpid, hne, hlen, hts, htot⟩ := hv
  have ht1 : 0 < m.header.mtype := by rw [hmt]; decide
  have ht2 : m.header.mtype < 15 := by rw [hmt]; decide
  have hfl : m.header.flags = 2 := (hfl' (by decide)).trans (by decide)
  have hne' : m.topics.length ≠ 0 :=
    fun h0 => hne (List.eq_nil_of_length_eq_zero h0)
  refine ⟨1 + (writeVarintLoop (subscribeBodyLen m)).length + 2
      + (m.topics.map (fun t => 2 + t.length + 1)).sum,
    1 + (writeVarintLoop (subscribeBodyLen m)).length + 2
      + (m.topics.map (fun t => 2 + t.length + 1)).sum,
    .subscribe { m with header := { m.header with remlen := subscribeBodyLen m } },
    headerByte { m.header with remlen := subscribeBodyLen m } ::
      (writeVarintLoop (subscribeBodyLen m) ++
        (writeUint16 m.packetId ++ pairsBytes m.topics m.qos)), ?_, ?_, ?_⟩
  · show mapEncodeResult .subscribe (subscribeEncode m []) = _
    rw [subscribeEncode_eq m hlen hts ht1 ht2 htot]
    rfl
  · show (subscribeDecode _).map _ = _
    rw [subscribeDecode_of_encoded m hlen hts hne' hpid hmt hfl htot]
    rfl
  · show mapEncodeResult .subscribe
      (subscribeEncode { m with header := { m.header with remlen := subscribeBodyLen m } } []) = _
    rw [subscribeEncode_eq { m with header := { m.header with remlen := subscribeBodyLen m } }
      hlen hts ht1 ht2 htot]
    rfl

theorem roundTrips_unsubscribe (m : UnsubscribeMessage) (hv : UnsubscribeValid m) :
    RoundTrips (.unsubscribe m) := by
  obtain ⟨⟨hmt, hf16, hfl', hq'⟩, hpid, hne, hts, htot⟩ := hv
  have ht1 : 0 < m.header.mtype := by rw [hmt]; decide
  have ht2 : m.header.mtype < 15 := by rw [hmt]; decide
  have hfl : m.header.flags = 2 := (hfl' (by decide)).trans (by decide)
  have hne' : m.topics.length ≠ 0 :=
    fun h0 => hne (List.eq_nil_of_length_eq_zero h0)
  refine ⟨1 + (writeVarintLoop (unsubscribeBodyLen m)).length + 2
      + (m.topics.map (fun t => 2 + t.length)).sum,
    1 + (writeVarintLoop (unsubscribeBodyLen m)).length + 2
      + (m.topics.map (fun t => 2 + t.length)).sum,
    .unsubscribe { m with header := { m.header with remlen := unsubscribeBodyLen m } },
    headerByte { m.header with remlen := unsubscribeBodyLen m } ::
      (writeVarintLoop (unsubscribeBodyLen m) ++
        (writeUint16 m.packetId ++ topicsBytes m.topics)), ?_, ?_, ?_⟩
  · show mapEncodeResult .unsubscribe (unsubscribeEncode m []) = _
    rw [unsubscribeEncode_eq m hts ht1 ht2 htot]
    rfl
  · show (unsubscribeDecode _).map _ = _
    rw [unsubscribeDecode_of_encoded m hts hne' hpid hmt hfl htot]
    rfl
  · show mapEncodeResult .unsubscribe
      (unsubscribeEncode { m with header := { m.header with remlen := unsubscribeBodyLen m } } []) = _
    rw [unsubscribeEncode_eq { m with header := { m.header with remlen := unsubscribeBodyLen m } }
      hts ht1 ht2 htot]
    rfl

theorem roundTrips_connect (m : ConnectMessage) (hv : ConnectValid m) :
    RoundTrips (.connect m) := by
  obtain ⟨⟨hmt, hf16, hfl', hq'⟩, hcf256, hcf2, hwq, hwv, huf, hu0, hp0, hup,
    hw0, hcid, hvc, hpn, hka, hcl, hwt, hwm, hul, hpl, htot⟩ := hv
  have hfl : m.header.flags = 0 := (hfl' (by decide)).trans (by decide)
  refine ⟨1 + (writeVarintLoop (connectBodyLen m)).length + connectBodyLen m,
    1 + (writeVarintLoop (connectBodyLen m)).length + connectBodyLen m,
    .connect { m with header := { m.header with remlen := connectBodyLen m } },
    headerByte { m.header with remlen := connectBodyLen m } ::
      (writeVarintLoop (connectBodyLen m) ++ connectBodyBytes m), ?_, ?_, ?_⟩
  · show mapEncodeResult .connect (connectEncode m []) = _
    rw [connectEncode_eq m hmt hpn hcl hwt hwm hul hpl htot]
    rfl
  · show (connectDecode _).map _ = _
    rw [connectDecode_of_encoded m hmt hfl hpn hcf2 hwq hwv huf hu0 hp0 hup
      hw0 hcid hvc hka hcl hwt hwm hul hpl htot]
    rfl
  · show mapEncodeResult .connect
      (connectEncode { m with header := { m.header with remlen := connectBodyLen m } } []) = _
    rw [connectEncode_eq { m with header := { m.header with remlen := connectBodyLen m } }
      hmt hpn hcl hwt hwm hul hpl htot]
    rfl

/-! ## Claim C1: encode/decode round-trip -/

/-- C1 (counterexample to the claim as stated): a Connect message with the
username flag set and the password flag unset encodes successfully, but
decoding the produced bytes with a fresh Connect packet fails with the
username-without-password error, so `decode(encode(p)) == p` does not hold
for every packet on which Encode succeeds. -/
theorem C1_counterexample :
    Packet.encode (.connect cexC1) [] =
      (some (18,
        .connect { cexC1 with header := { cexC1.header with remlen := 16 } }),
       [16, 16, 0, 4, 77, 81, 84, 84, 4, 130, 0, 0, 0, 1, 97, 0, 1, 117]) ∧
    Packet.decodeAs 1
        [16, 16, 0, 4, 77, 81, 84, 84, 4, 130, 0, 0, 0, 1, 97, 0, 1, 117] =
      .error .usernameWithoutPassword := by
  decide

/-- C1 (amended): for every wire-valid packet of any of the 13 packet types,
Encode succeeds, decoding the produced bytes with a fresh packet of the same
wire type succeeds and yields exactly the encoded packet (the input packet
with its remaining length updated, all other fields equal), and re-encoding
the decoded packet reproduces the same byte sequence, so well-formed captured
bytes re-encode to themselves. -/
theorem C1_round_trip (p : Packet) (hv : Packet.valid p) : RoundTrips p := by
  cases p with
  | connect m => exact roundTrips_connect m hv
  | connack m => exact roundTrips_connack m hv
  | publish m => exact roundTrips_publish m hv
  | puback m => exact roundTrips_puback m hv
  | pubrec m => exact roundTrips_pubrec m hv
  | pubrel m => exact roundTrips_pubrel m hv
  | pubcomp m => exact roundTrips_pubcomp m hv
  | subscribe m => exact roundTrips_subscribe m hv
  | suback m => exact roundTrips_suback m hv
  | unsubscribe m => exact roundTrips_unsubscribe m hv
  | unsuback m => exact roundTrips_unsuback m hv
  | pingreq m => exact roundTrips_pingreq m hv
  | pingresp m => exact roundTrips_pingresp m hv
  | disconnect m => exact roundTrips_disconnect m hv

/-- Witness for C1: the round trip evaluated on a concrete Puback packet. -/
theorem C1_round_trip_witness :
    Packet.valid (.puback c1pk) ∧ RoundTrips (.puback c1pk) :=
  ⟨by unfold Packet.valid AckValid FixedHeaderValidFor c1pk; decide,
   C1_round_trip _
     (by unfold Packet.valid AckValid FixedHeaderValidFor c1pk; decide)⟩

end Mqtt
